import Mathlib

/-!
# Verification of the garnett DCD binary trajectory reader

Shallow embedding of the Cython DCD reader (`src/glotzformats/dcdreader.pyx`
and its optimized revision `src/unnamed/part_004`) over byte streams,
together with proofs of the specification's claims about it.

A stream is a `List Nat` of byte values; the C `FILE*` cursor is an explicit
position (`pos : Nat`).  `fread` is modelled by `readBytes` (`take`/`drop`
with an exact-item-count check, as the preamble's `assert fread(...) == 1`:
a short read at EOF fails), forward `fseek SEEK_CUR` by `pos + n`, `ftell`
by `pos`, `fflush` by a no-op.  Fallible reads return `Except DCDError`.
The reader's preamble — the document appended to `src/changelog.rst` after
the document separator — declares the low-level helpers: `_read_int` reads
a C `unsigned int` (4 bytes, native little-endian, embedded as a `Nat`
below `2^32`), `_read_double` and `_read_float` read 8 and 4 bytes.
Floating point payloads are never interpreted arithmetically by the reader,
so `double`/`float` values are carried as their raw 64- and 32-bit
little-endian bit patterns (`Nat`): "bit-identical" in the spec is exactly
`Nat` equality of these patterns, and the C narrowing of the frame header's
doubles into the preamble's `float` struct fields is a function of those
patterns.
-/

/-- Errors of the reader, named after the spec's error taxonomy (§7).
The Cython source raises bare `assert`s; each assert site is tagged with the
spec's name for the condition it checks:
`formatError` for the structural header checks (84-byte leading record,
magic tag, reserved-zero fields, 4-byte marker record),
`corruptRecordError` for every trailing-length-field comparison, and
`unexpectedEOF` when a read runs past the end of the stream. -/
inductive DCDError where
  | unexpectedEOF
  | formatError
  | corruptRecordError
deriving DecidableEq, Repr

/-- `cdef struct _DCDFileHeader` (preamble in `src/changelog.rst`): eight
`unsigned int` fields, filled by `_read_file_header`. -/
structure DCDFileHeader where
  num_frames : Nat
  m_start_timestep : Nat
  m_period : Nat
  timesteps : Nat
  timestep : Nat
  include_unitcell : Nat
  charmm_version : Nat
  n_particles : Nat
deriving DecidableEq, Repr

/-- `cdef struct _DCDFrameHeader` (preamble in `src/changelog.rst`): the six
box scalars, in the order the source reads them (a, gamma, b, beta, alpha,
c).  The source reads each as a `double` (8 bytes) and narrows it into a
C `float` struct field; the embedding carries the 64-bit pattern read,
which determines the narrowed float. -/
structure DCDFrameHeader where
  box_a : Nat
  box_gamma : Nat
  box_b : Nat
  box_beta : Nat
  box_alpha : Nat
  box_c : Nat
deriving DecidableEq, Repr

/-- C `fread` on the byte stream, with the preamble's
`assert fread(...) == 1` item-count check folded in: reads `n` bytes at
`pos`; a short read (stream truncated) fails the assert — `UnexpectedEOF`
in the spec's taxonomy (§4.3 step 6).  Reading 0 bytes succeeds anywhere,
as C `fread` with count 0. -/
def readBytes (data : List Nat) (pos n : Nat) : Except DCDError (List Nat × Nat) :=
  let s := (data.drop pos).take n
  if s.length = n then .ok (s, pos + n) else .error .unexpectedEOF

/-- Little-endian value of a byte list (base 256). -/
def leVal : List Nat → Nat
  | [] => 0
  | b :: bs => b + 256 * leVal bs

/-- `cdef inline unsigned int _read_int` (preamble appended to
`src/changelog.rst`): `fread` 4 bytes into an `unsigned int` and assert
exactly one item was read.  Native little-endian; the unsigned value is a
`Nat` below `2^32`. -/
def _read_int (data : List Nat) (pos : Nat) : Except DCDError (Nat × Nat) := do
  let (bs, p) ← readBytes data pos 4
  .ok (leVal bs, p)

/-- `cdef inline double _read_double` (preamble appended to
`src/changelog.rst`): `fread` 8 bytes and assert one item read; the 8-byte
pattern is kept uninterpreted. -/
def _read_double (data : List Nat) (pos : Nat) : Except DCDError (Nat × Nat) := do
  let (bs, p) ← readBytes data pos 8
  .ok (leVal bs, p)

/-- `cdef inline float _read_float` (preamble appended to
`src/changelog.rst`): `fread` 4 bytes and assert one item read; the 4-byte
pattern is kept uninterpreted. -/
def _read_float (data : List Nat) (pos : Nat) : Except DCDError (Nat × Nat) := do
  let (bs, p) ← readBytes data pos 4
  .ok (leVal bs, p)

/-- `for i in range(n): _read_int(cfile)` — values discarded. -/
def _skip_ints (data : List Nat) : Nat → Nat → Except DCDError Nat
  | 0, pos => .ok pos
  | n + 1, pos => do
    let (_, p) ← _read_int data pos
    _skip_ints data n p

/-- `for i in range(n): assert _read_int(cfile) == 0` — the reserved-zero
loop of `_read_file_header` (a nonzero reserved field is a `FormatError`). -/
def _zero_ints (data : List Nat) : Nat → Nat → Except DCDError Nat
  | 0, pos => .ok pos
  | n + 1, pos => do
    let (v, p) ← _read_int data pos
    if v = 0 then _zero_ints data n p else .error .formatError

/-- `for i in range(n): fseek(cfile, len, SEEK_CUR)` — the title-skipping
loop.  `len` is Python's `int((title_section_size - 4) / 2)`, an `Int`
that is negative when `title_section_size < 4`.  C `fseek` moves the
cursor by `len` (backward for negative `len`, possibly past EOF for
positive `len`); only a seek to a negative resulting offset fails
(`EINVAL`, return value ignored by the source), leaving the position
unchanged. -/
def _seek_n (len : Int) : Nat → Nat → Nat
  | 0, pos => pos
  | n + 1, pos =>
    _seek_n len n (if (pos : Int) + len < 0 then pos else ((pos : Int) + len).toNat)

/-- The 4-character magic tag `b'CORD'`. -/
def magicCORD : List Nat := [67, 79, 82, 68]

/-! ## `Dcd`: the optimized reader, `src/unnamed/part_004` -/

namespace Dcd

/-- `_read_file_header` (part_004 lines 10–39): validate the 84-byte leading
record, parse the declared counts, skip the title block with
`len_title = int((title_section_size - 4) / 2)`, and read the 4-byte
particle-count marker record.  Python's `int(x / 2)` truncates the true
quotient toward zero, i.e. `Int.tdiv`; for `title_section_size < 4` the
value is negative and each `fseek` moves the cursor backward (see
`_seek_n`). -/
def _read_file_header (data : List Nat) (pos : Nat) :
    Except DCDError (DCDFileHeader × Nat) := do
  let (l84, p) ← _read_int data pos
  if l84 = 84 then
    let (c, p) ← readBytes data p 4
    if c = magicCORD then
      let (num_frames, p) ← _read_int data p
      let (m_start_timestep, p) ← _read_int data p
      let (m_period, p) ← _read_int data p
      let (timesteps, p) ← _read_int data p
      let p ← _skip_ints data 5 p
      let (timestep, p) ← _read_int data p
      let (include_unitcell, p) ← _read_int data p
      let p ← _zero_ints data 8 p
      let (charmm_version, p) ← _read_int data p
      let (t84, p) ← _read_int data p
      if t84 = 84 then
        let (title_section_size, p) ← _read_int data p
        let (n_titles, p) ← _read_int data p
        let len_title : Int := Int.tdiv ((title_section_size : Int) - 4) 2
        let p := _seek_n len_title n_titles p
        let (ttl, p) ← _read_int data p
        if ttl = title_section_size then
          let (m4, p) ← _read_int data p
          if m4 = 4 then
            let (n_particles, p) ← _read_int data p
            let (m4b, p) ← _read_int data p
            if m4b = 4 then
              .ok (⟨num_frames, m_start_timestep, m_period, timesteps,
                    timestep, include_unitcell, charmm_version, n_particles⟩, p)
            else .error .corruptRecordError
          else .error .formatError
        else .error .corruptRecordError
      else .error .corruptRecordError
    else .error .formatError
  else .error .formatError

/-- `_read_frame_header` (part_004 lines 42–54): length-prefixed record of
six doubles, trailing length must equal the prefix. -/
def _read_frame_header (data : List Nat) (pos : Nat) :
    Except DCDError (DCDFrameHeader × Nat) := do
  let (frame_header_size, p) ← _read_int data pos
  let (box_a, p) ← _read_double data p
  let (box_gamma, p) ← _read_double data p
  let (box_b, p) ← _read_double data p
  let (box_beta, p) ← _read_double data p
  let (box_alpha, p) ← _read_double data p
  let (box_c, p) ← _read_double data p
  let (t, p) ← _read_int data p
  if t = frame_header_size then
    .ok (⟨box_a, box_gamma, box_b, box_beta, box_alpha, box_c⟩, p)
  else .error .corruptRecordError

/-- One iteration of the `_skip_frame` loop (part_004 lines 58–61):
read the length prefix, `fseek` over the payload, check the trailing
length field. -/
def _skip_record (data : List Nat) (pos : Nat) : Except DCDError Nat := do
  let (len_section, p) ← _read_int data pos
  let p := p + len_section
  let (t, p) ← _read_int data p
  if t = len_section then .ok p else .error .corruptRecordError

/-- `_skip_frame` (part_004 lines 57–62): `for i in range(3)` over
`_skip_record`. -/
def _skip_frame (data : List Nat) (pos : Nat) : Except DCDError Nat := do
  let p1 ← _skip_record data pos
  let p2 ← _skip_record data p1
  _skip_record data p2

/-- The `for i in range(n_frames)` loop of `_scan` (part_004 lines 69–72):
`offsets.append(ftell(cfile))`, then skip the frame header record and the
three coordinate records. -/
def _scan_loop (data : List Nat) : Nat → Nat → Except DCDError (List Nat)
  | 0, _ => .ok []
  | n + 1, pos => do
    let (_, q) ← _read_frame_header data pos
    let p1 ← _skip_frame data q
    let rest ← _scan_loop data n p1
    .ok (pos :: rest)

/-- `_scan` (part_004 lines 65–73): parse the file header, then index
`num_frames` frames by byte offset. -/
def _scan (data : List Nat) (pos : Nat) :
    Except DCDError (DCDFileHeader × List Nat) := do
  let (file_header, p) ← _read_file_header data pos
  let offsets ← _scan_loop data file_header.num_frames p
  .ok (file_header, offsets)

/-- One iteration of the `_read_frame_body` loop (part_004 lines 82–88):
read the length prefix, `fread` exactly `N` 4-byte floats into row `i` of
the caller's array (returned here as the raw byte row), assert the read was
complete, check the trailing length field.  Note the declared
`len_section` is *not* compared with `4 * N`. -/
def _read_body_section (data : List Nat) (pos N : Nat) :
    Except DCDError (List Nat × Nat) := do
  let (len_section, p) ← _read_int data pos
  let (row, p) ← readBytes data p (4 * N)
  let (t, p) ← _read_int data p
  if t = len_section then .ok (row, p) else .error .corruptRecordError

/-- `_read_frame_body` (part_004 lines 78–89): the three coordinate rows
(x, y, z).  On success every row has been fully overwritten with the bytes
read from the stream, so the resulting array is returned by value. -/
def _read_frame_body (data : List Nat) (pos N : Nat) :
    Except DCDError ((List Nat × List Nat × List Nat) × Nat) := do
  let (r0, p) ← _read_body_section data pos N
  let (r1, p) ← _read_body_section data p N
  let (r2, p) ← _read_body_section data p N
  .ok ((r0, r1, r2), p)

/-- `read_frame` (part_004 lines 98–106): `fseek SEEK_SET` when
`offset >= 0`, then frame header and frame body. -/
def read_frame (data : List Nat) (pos : Nat) (offset : Int) (N : Nat) :
    Except DCDError ((DCDFrameHeader × (List Nat × List Nat × List Nat)) × Nat) := do
  let p0 := if 0 ≤ offset then offset.toNat else pos
  let (frame_header, p) ← _read_frame_header data p0
  let (rows, p) ← _read_frame_body data p N
  .ok ((frame_header, rows), p)

end Dcd

/-! ## `DcdP`: the portable reader, `src/glotzformats/dcdreader.pyx`

The scan chain (`_read_file_header`, `_read_frame_header`, `_skip_frame`,
`_scan`) is textually identical to `part_004`'s; it is embedded again,
line for line against its own file, so that the two can be compared
(claim C10).  `_read_frame_body` differs: it fills the caller's `N×3`
array one float at a time (`xyz[j][i] = _read_float(cfile)`), so it is
embedded with the array threaded through explicitly — the final array is
returned even when the read fails, which is exactly the in-place-mutation
semantics of the source. -/

namespace DcdP

/-- `_read_file_header` (dcdreader.pyx lines 7–36); identical to
`Dcd._read_file_header`. -/
def _read_file_header (data : List Nat) (pos : Nat) :
    Except DCDError (DCDFileHeader × Nat) := do
  let (l84, p) ← _read_int data pos
  if l84 = 84 then
    let (c, p) ← readBytes data p 4
    if c = magicCORD then
      let (num_frames, p) ← _read_int data p
      let (m_start_timestep, p) ← _read_int data p
      let (m_period, p) ← _read_int data p
      let (timesteps, p) ← _read_int data p
      let p ← _skip_ints data 5 p
      let (timestep, p) ← _read_int data p
      let (include_unitcell, p) ← _read_int data p
      let p ← _zero_ints data 8 p
      let (charmm_version, p) ← _read_int data p
      let (t84, p) ← _read_int data p
      if t84 = 84 then
        let (title_section_size, p) ← _read_int data p
        let (n_titles, p) ← _read_int data p
        let len_title : Int := Int.tdiv ((title_section_size : Int) - 4) 2
        let p := _seek_n len_title n_titles p
        let (ttl, p) ← _read_int data p
        if ttl = title_section_size then
          let (m4, p) ← _read_int data p
          if m4 = 4 then
            let (n_particles, p) ← _read_int data p
            let (m4b, p) ← _read_int data p
            if m4b = 4 then
              .ok (⟨num_frames, m_start_timestep, m_period, timesteps,
                    timestep, include_unitcell, charmm_version, n_particles⟩, p)
            else .error .corruptRecordError
          else .error .formatError
        else .error .corruptRecordError
      else .error .corruptRecordError
    else .error .formatError
  else .error .formatError

/-- `_read_frame_header` (dcdreader.pyx lines 39–51); identical to
`Dcd._read_frame_header`. -/
def _read_frame_header (data : List Nat) (pos : Nat) :
    Except DCDError (DCDFrameHeader × Nat) := do
  let (frame_header_size, p) ← _read_int data pos
  let (box_a, p) ← _read_double data p
  let (box_gamma, p) ← _read_double data p
  let (box_b, p) ← _read_double data p
  let (box_beta, p) ← _read_double data p
  let (box_alpha, p) ← _read_double data p
  let (box_c, p) ← _read_double data p
  let (t, p) ← _read_int data p
  if t = frame_header_size then
    .ok (⟨box_a, box_gamma, box_b, box_beta, box_alpha, box_c⟩, p)
  else .error .corruptRecordError

/-- One iteration of the `_skip_frame` loop (dcdreader.pyx lines 55–58). -/
def _skip_record (data : List Nat) (pos : Nat) : Except DCDError Nat := do
  let (len_section, p) ← _read_int data pos
  let p := p + len_section
  let (t, p) ← _read_int data p
  if t = len_section then .ok p else .error .corruptRecordError

/-- `_skip_frame` (dcdreader.pyx lines 54–59). -/
def _skip_frame (data : List Nat) (pos : Nat) : Except DCDError Nat := do
  let p1 ← _skip_record data pos
  let p2 ← _skip_record data p1
  _skip_record data p2

/-- The `for i in range(n_frames)` loop of `_scan`
(dcdreader.pyx lines 66–69). -/
def _scan_loop (data : List Nat) : Nat → Nat → Except DCDError (List Nat)
  | 0, _ => .ok []
  | n + 1, pos => do
    let (_, q) ← _read_frame_header data pos
    let p1 ← _skip_frame data q
    let rest ← _scan_loop data n p1
    .ok (pos :: rest)

/-- `_scan` (dcdreader.pyx lines 62–70). -/
def _scan (data : List Nat) (pos : Nat) :
    Except DCDError (DCDFileHeader × List Nat) := do
  let (file_header, p) ← _read_file_header data pos
  let offsets ← _scan_loop data file_header.num_frames p
  .ok (file_header, offsets)

/-- `xyz[j][i] = f`: update entry `i` of row `j` of the `N×3` array. -/
def set2 (xyz : List (List Nat)) (j i f : Nat) : List (List Nat) :=
  xyz.set j ((xyz.getD j []).set i f)

/-- The inner loop `for j in range(N): xyz[j][i] = _read_float(cfile)`
(dcdreader.pyx lines 76–77), counting down `n` floats starting at row `j`.
The array written so far is returned even when a read fails. -/
def _read_col (data : List Nat) (i : Nat) :
    Nat → Nat → Nat → List (List Nat) → List (List Nat) × Except DCDError Nat
  | 0, _, pos, xyz => (xyz, .ok pos)
  | n + 1, j, pos, xyz =>
    match _read_float data pos with
    | .error e => (xyz, .error e)
    | .ok (f, p) => _read_col data i n (j + 1) p (set2 xyz j i f)

/-- One iteration of the `_read_frame_body` loop (dcdreader.pyx
lines 74–78): length prefix, `N` floats into column `i`, trailing check. -/
def _read_section (data : List Nat) (i pos : Nat) (xyz : List (List Nat)) :
    List (List Nat) × Except DCDError Nat :=
  match _read_int data pos with
  | .error e => (xyz, .error e)
  | .ok (len_section, p) =>
    match _read_col data i xyz.length 0 p xyz with
    | (xyz', .error e) => (xyz', .error e)
    | (xyz', .ok p2) =>
      match _read_int data p2 with
      | .error e => (xyz', .error e)
      | .ok (t, p3) =>
        if t = len_section then (xyz', .ok p3)
        else (xyz', .error .corruptRecordError)

/-- `_read_frame_body` (dcdreader.pyx lines 72–79): `N = len(xyz)`, then
the three coordinate sections `i = 0, 1, 2`. -/
def _read_frame_body (data : List Nat) (pos : Nat) (xyz : List (List Nat)) :
    List (List Nat) × Except DCDError Nat :=
  match _read_section data 0 pos xyz with
  | (xyz', .error e) => (xyz', .error e)
  | (xyz', .ok p1) =>
    match _read_section data 1 p1 xyz' with
    | (xyz'', .error e) => (xyz'', .error e)
    | (xyz'', .ok p2) => _read_section data 2 p2 xyz''

/-- `read_frame` (dcdreader.pyx lines 88–95): `fseek SEEK_SET` when an
offset is given (`offset=None` default), then frame header and body. -/
def read_frame (data : List Nat) (pos : Nat) (offset : Option Nat)
    (xyz : List (List Nat)) :
    List (List Nat) × Except DCDError (DCDFrameHeader × Nat) :=
  let p0 := match offset with | some o => o | none => pos
  match _read_frame_header data p0 with
  | .error e => (xyz, .error e)
  | .ok (frame_header, p1) =>
    match _read_frame_body data p1 xyz with
    | (xyz', .ok p2) => (xyz', .ok (frame_header, p2))
    | (xyz', .error e) => (xyz', .error e)

end DcdP

/-! ## Well-formed streams: the wire format of spec §6

These encoders define what the spec calls a *well-formed input stream*:
every record bracketed by a 4-byte length prefix and an identical 4-byte
suffix; a leading 84-byte record (magic tag, counts, reserved fields,
variant marker); a title record of `n_titles` fixed-width title strings;
a 4-byte terminator record holding `num_particles`; then, per frame, a
record of six box scalars and three records of 32-bit floats. -/

/-- 4-byte little-endian encoding of `v` (`v < 2^32`). -/
def enc32 (v : Nat) : List Nat :=
  [v % 256, v / 256 % 256, v / 65536 % 256, v / 16777216 % 256]

/-- Concatenated 4-byte encodings of a list of values. -/
def encInts (vs : List Nat) : List Nat := (vs.map enc32).flatten

/-- A Fortran-style record: length prefix, payload, identical suffix. -/
def encRecord (payload : List Nat) : List Nat :=
  enc32 payload.length ++ payload ++ enc32 payload.length

/-- The leading header record, fully parameterized so that malformed
variants (wrong declared length, wrong magic, nonzero reserved fields) can
be expressed; a well-formed one has `leadLen = trail = 84`,
`magic = magicCORD` and `res = List.replicate 8 0`. -/
def encHeaderRecord (leadLen : Nat) (magic : List Nat)
    (k s per ts : Nat) (junk : List Nat) (tstep iuc : Nat)
    (res : List Nat) (cver trail : Nat) : List Nat :=
  enc32 leadLen ++ magic ++ enc32 k ++ enc32 s ++ enc32 per ++ enc32 ts ++
    encInts junk ++ enc32 tstep ++ enc32 iuc ++ encInts res ++
    enc32 cver ++ enc32 trail

/-- The title record: section size, title count, title strings, suffix. -/
def encTitle (tss n_titles : Nat) (titles : List Nat) : List Nat :=
  enc32 tss ++ enc32 n_titles ++ titles ++ enc32 tss

/-- The 4-byte terminator record holding `num_particles`. -/
def encMarker (np : Nat) : List Nat := enc32 4 ++ enc32 np ++ enc32 4

/-- One frame: a record of six box scalars (48 bytes) and three coordinate
records. -/
def encFrame (box xs ys zs : List Nat) : List Nat :=
  encRecord box ++ encRecord xs ++ encRecord ys ++ encRecord zs

/-- The per-frame payloads: box bytes and the three axis arrays. -/
structure FrameData where
  box : List Nat
  xs : List Nat
  ys : List Nat
  zs : List Nat

/-- A frame is well formed for particle count `N` when the box record holds
six doubles and each axis record holds `N` 32-bit floats. -/
def FrameData.wf (f : FrameData) (N : Nat) : Prop :=
  f.box.length = 48 ∧ f.xs.length = 4 * N ∧ f.ys.length = 4 * N ∧
    f.zs.length = 4 * N

/-- Concatenation of encoded frames. -/
def encFrames (fs : List FrameData) : List Nat :=
  (fs.map fun f => encFrame f.box f.xs f.ys f.zs).flatten

/-- The byte size of one well-formed encoded frame with `N` particles. -/
def frameSize (N : Nat) : Nat := 80 + 12 * N

/-! ## Helper lemmas: reading an encoded stream -/

theorem leVal_enc32 (v : Nat) (hv : v < 4294967296) : leVal (enc32 v) = v := by
  simp only [enc32, leVal]
  omega

theorem enc32_length (v : Nat) : (enc32 v).length = 4 := rfl

theorem enc32_lt (v : Nat) : ∀ b ∈ enc32 v, b < 256 := by
  simp only [enc32, List.mem_cons, List.not_mem_nil, or_false]
  rintro b (rfl | rfl | rfl | rfl) <;> exact Nat.mod_lt _ (by norm_num)

/-- `enc32` is a section of `leVal` on 4-byte lists. -/
theorem enc32_leVal (t : List Nat) (hl : t.length = 4)
    (hb : ∀ b ∈ t, b < 256) : enc32 (leVal t) = t := by
  match t, hl with
  | [a, b, c, d], _ =>
    simp only [List.mem_cons, List.not_mem_nil, or_false] at hb
    have ha := hb a (by tauto)
    have hbb := hb b (by tauto)
    have hc := hb c (by tauto)
    have hd := hb d (by tauto)
    simp only [leVal, enc32, List.cons.injEq, and_true]
    refine ⟨?_, ?_, ?_, ?_⟩ <;> omega

/-- Advancing the cursor past a known chunk of the remaining stream. -/
theorem drop_step {data : List Nat} {pos n : Nat} {m r : List Nat}
    (h : data.drop pos = m ++ r) (hm : m.length = n) :
    data.drop (pos + n) = r := by
  subst hm
  rw [← List.drop_drop, h, List.drop_left]

/-- `readBytes` succeeds on a chunk that is literally next in the stream. -/
theorem readBytes_of_drop {data : List Nat} {pos n : Nat} {m r : List Nat}
    (h : data.drop pos = m ++ r) (hm : m.length = n) :
    readBytes data pos n = .ok (m, pos + n) := by
  subst hm
  simp [readBytes, h, List.take_left]

/-- `_read_int` decodes the next four bytes. -/
theorem read_int_of_drop {data : List Nat} {pos : Nat} {t r : List Nat}
    (h : data.drop pos = t ++ r) (hl : t.length = 4) :
    _read_int data pos = .ok (leVal t, pos + 4) := by
  rw [_read_int, readBytes_of_drop h hl]
  rfl

/-- `_read_int` decodes an encoded value (`v < 2^32`). -/
theorem read_int_enc {data : List Nat} {pos v : Nat} {r : List Nat}
    (h : data.drop pos = enc32 v ++ r) (hv : v < 4294967296) :
    _read_int data pos = .ok (v, pos + 4) := by
  rw [read_int_of_drop h (enc32_length v), leVal_enc32 v hv]

/-- `_read_double` consumes the next eight bytes. -/
theorem read_double_of_drop {data : List Nat} {pos : Nat} {t r : List Nat}
    (h : data.drop pos = t ++ r) (hl : t.length = 8) :
    _read_double data pos = .ok (leVal t, pos + 8) := by
  rw [_read_double, readBytes_of_drop h hl]
  rfl

/-- A read past the end of the stream fails with `UnexpectedEOF`. -/
theorem read_int_eof {data : List Nat} {pos : Nat}
    (h : data.length ≤ pos) : _read_int data pos = .error .unexpectedEOF := by
  rw [_read_int, readBytes]
  simp only [List.drop_eq_nil_of_le h, List.take_nil, List.length_nil]
  rfl

theorem bind_ok_law {ε α β : Type} (a : α) (f : α → Except ε β) :
    (Except.ok a : Except ε α) >>= f = f a := rfl

theorem bind_error_law {ε α β : Type} (e : ε) (f : α → Except ε β) :
    (Except.error e : Except ε α) >>= f = .error e := rfl

theorem encInts_cons (v : Nat) (vs : List Nat) :
    encInts (v :: vs) = enc32 v ++ encInts vs := rfl

theorem encInts_length (vs : List Nat) : (encInts vs).length = 4 * vs.length := by
  induction vs with
  | nil => rfl
  | cons v vs ih =>
    rw [encInts_cons, List.length_append, enc32_length, ih, List.length_cons]
    omega

/-- `_skip_ints` runs over a sequence of encoded ints, value-blind. -/
theorem skip_ints_enc {data : List Nat} :
    ∀ (vs : List Nat) {pos : Nat} {r : List Nat},
      data.drop pos = encInts vs ++ r →
      _skip_ints data vs.length pos = .ok (pos + 4 * vs.length) ∧
        data.drop (pos + 4 * vs.length) = r := by
  intro vs
  induction vs with
  | nil =>
    intro pos r h
    simpa [_skip_ints, encInts] using h
  | cons v vs ih =>
    intro pos r h
    rw [encInts_cons, List.append_assoc] at h
    have r1 := read_int_of_drop h (enc32_length v)
    have d1 := drop_step h (enc32_length v)
    obtain ⟨ih1, ih2⟩ := ih d1
    constructor
    · rw [List.length_cons, _skip_ints, r1, bind_ok_law]
      show _skip_ints data vs.length (pos + 4) = Except.ok (pos + 4 * (vs.length + 1))
      rw [ih1]
      exact congrArg Except.ok (by omega)
    · have : pos + 4 * (v :: vs).length = pos + 4 + 4 * vs.length := by
        rw [List.length_cons]; omega
      rw [this]
      exact ih2

/-- `_zero_ints` accepts a run of encoded zeros. -/
theorem zero_ints_ok {data : List Nat} :
    ∀ (n : Nat) {pos : Nat} {r : List Nat},
      data.drop pos = encInts (List.replicate n 0) ++ r →
      _zero_ints data n pos = .ok (pos + 4 * n) ∧
        data.drop (pos + 4 * n) = r := by
  intro n
  induction n with
  | zero =>
    intro pos r h
    simpa [_zero_ints, encInts] using h
  | succ n ih =>
    intro pos r h
    rw [List.replicate_succ, encInts_cons, List.append_assoc] at h
    have r1 := read_int_enc h (by norm_num)
    have d1 := drop_step h (enc32_length 0)
    obtain ⟨ih1, ih2⟩ := ih d1
    constructor
    · rw [_zero_ints, r1, bind_ok_law]
      show (if 0 = 0 then _zero_ints data n (pos + 4) else .error .formatError) =
        Except.ok (pos + 4 * (n + 1))
      rw [if_pos rfl, ih1]
      exact congrArg Except.ok (by omega)
    · have : pos + 4 * (n + 1) = pos + 4 + 4 * n := by omega
      rw [this]
      exact ih2

/-- `_zero_ints` rejects the first nonzero reserved field with
`FormatError`. -/
theorem zero_ints_err {data : List Nat} :
    ∀ (zs : List Nat) (v : Nat) (vs : List Nat) {pos : Nat} {r : List Nat},
      (∀ x ∈ zs, x = 0) → v ≠ 0 → v < 4294967296 →
      data.drop pos = encInts (zs ++ v :: vs) ++ r →
      _zero_ints data (zs ++ v :: vs).length pos = .error .formatError := by
  intro zs
  induction zs with
  | nil =>
    intro v vs pos r _ hv hv32 h
    rw [List.nil_append, encInts_cons, List.append_assoc] at h
    have r1 := read_int_enc h hv32
    rw [List.nil_append, List.length_cons, _zero_ints, r1, bind_ok_law]
    show (if v = 0 then _zero_ints data vs.length (pos + 4) else .error .formatError) =
      .error .formatError
    rw [if_neg hv]
  | cons z zs ih =>
    intro v vs pos r hz hv hv32 h
    have hz0 : z = 0 := hz z (List.mem_cons_self z zs)
    subst hz0
    rw [List.cons_append, encInts_cons, List.append_assoc] at h
    have r1 := read_int_enc h (by norm_num)
    have d1 := drop_step h (enc32_length 0)
    rw [List.cons_append, List.length_cons, _zero_ints, r1, bind_ok_law]
    show (if 0 = 0 then _zero_ints data (zs ++ v :: vs).length (pos + 4)
        else .error .formatError) = .error .formatError
    rw [if_pos rfl]
    exact ih v vs (fun x hx => hz x (List.mem_cons_of_mem _ hx)) hv hv32 d1

/-- Reading one double from inside a longer chunk. -/
theorem read_double_chunk {data : List Nat} {pos : Nat} {m r : List Nat}
    (h : data.drop pos = m ++ r) (hm : 8 ≤ m.length) :
    _read_double data pos = .ok (leVal (m.take 8), pos + 8) ∧
      data.drop (pos + 8) = m.drop 8 ++ r := by
  have hsplit : data.drop pos = m.take 8 ++ (m.drop 8 ++ r) := by
    rw [← List.append_assoc, List.take_append_drop]
    exact h
  have hlen : (m.take 8).length = 8 := by
    rw [List.length_take]
    omega
  exact ⟨read_double_of_drop hsplit hlen, drop_step hsplit hlen⟩

/-- `_read_frame_header` consumes exactly one well-formed box record
(48-byte payload): 56 bytes in total. -/
theorem read_frame_header_enc {data : List Nat} {pos : Nat} {box r : List Nat}
    (h : data.drop pos = encRecord box ++ r) (hb : box.length = 48) :
    ∃ fh, Dcd._read_frame_header data pos = .ok (fh, pos + 56) ∧
      data.drop (pos + 56) = r := by
  rw [encRecord, hb] at h
  simp only [List.append_assoc] at h
  have r1 := read_int_enc h (by norm_num)
  have d1 := drop_step h (enc32_length 48)
  have c1 := read_double_chunk d1 (by omega)
  have c2 := read_double_chunk c1.2 (by simp [List.length_drop]; omega)
  have c3 := read_double_chunk c2.2 (by simp [List.length_drop]; omega)
  have c4 := read_double_chunk c3.2 (by simp [List.length_drop]; omega)
  have c5 := read_double_chunk c4.2 (by simp [List.length_drop]; omega)
  have c6 := read_double_chunk c5.2 (by simp [List.length_drop]; omega)
  have hnil : (((((box.drop 8).drop 8).drop 8).drop 8).drop 8).drop 8 = [] := by
    refine List.eq_nil_of_length_eq_zero ?_
    simp [List.length_drop, hb]
  have d7 : data.drop (pos + 4 + 8 + 8 + 8 + 8 + 8 + 8) = enc32 48 ++ r := by
    have := c6.2
    rw [hnil, List.nil_append] at this
    exact this
  have r8 := read_int_enc d7 (by norm_num)
  have d8 := drop_step d7 (enc32_length 48)
  refine ⟨⟨leVal (box.take 8), leVal ((box.drop 8).take 8),
      leVal (((box.drop 8).drop 8).take 8),
      leVal ((((box.drop 8).drop 8).drop 8).take 8),
      leVal (((((box.drop 8).drop 8).drop 8).drop 8).take 8),
      leVal ((((((box.drop 8).drop 8).drop 8).drop 8).drop 8).take 8)⟩, ?_, ?_⟩
  · rw [Dcd._read_frame_header, r1, bind_ok_law]
    show (_read_double data (pos + 4)) >>= _ = _
    rw [c1.1, bind_ok_law]
    show (_read_double data (pos + 4 + 8)) >>= _ = _
    rw [c2.1, bind_ok_law]
    show (_read_double data (pos + 4 + 8 + 8)) >>= _ = _
    rw [c3.1, bind_ok_law]
    show (_read_double data (pos + 4 + 8 + 8 + 8)) >>= _ = _
    rw [c4.1, bind_ok_law]
    show (_read_double data (pos + 4 + 8 + 8 + 8 + 8)) >>= _ = _
    rw [c5.1, bind_ok_law]
    show (_read_double data (pos + 4 + 8 + 8 + 8 + 8 + 8)) >>= _ = _
    rw [c6.1, bind_ok_law]
    show (_read_int data (pos + 4 + 8 + 8 + 8 + 8 + 8 + 8)) >>= _ = _
    rw [r8, bind_ok_law]
    have hp : pos + 4 + 8 + 8 + 8 + 8 + 8 + 8 + 4 = pos + 56 := by omega
    show (if (48 : Nat) = 48 then
        Except.ok ((⟨leVal (box.take 8), leVal ((box.drop 8).take 8),
          leVal (((box.drop 8).drop 8).take 8),
          leVal ((((box.drop 8).drop 8).drop 8).take 8),
          leVal (((((box.drop 8).drop 8).drop 8).drop 8).take 8),
          leVal ((((((box.drop 8).drop 8).drop 8).drop 8).drop 8).take 8)⟩ :
            DCDFrameHeader),
          pos + 4 + 8 + 8 + 8 + 8 + 8 + 8 + 4)
      else Except.error DCDError.corruptRecordError) =
      Except.ok ((⟨leVal (box.take 8), leVal ((box.drop 8).take 8),
          leVal (((box.drop 8).drop 8).take 8),
          leVal ((((box.drop 8).drop 8).drop 8).take 8),
          leVal (((((box.drop 8).drop 8).drop 8).drop 8).take 8),
          leVal ((((((box.drop 8).drop 8).drop 8).drop 8).drop 8).take 8)⟩ :
            DCDFrameHeader),
        pos + 56)
    rw [if_pos rfl, hp]
  · have : pos + 56 = pos + 4 + 8 + 8 + 8 + 8 + 8 + 8 + 4 := by omega
    rw [this]
    exact d8

/-- `_skip_record` consumes exactly one encoded record, content-blind. -/
theorem skip_record_enc {data : List Nat} {pos : Nat} {blk r : List Nat}
    (h : data.drop pos = encRecord blk ++ r)
    (hb : blk.length < 4294967296) :
    Dcd._skip_record data pos = .ok (pos + 8 + blk.length) ∧
      data.drop (pos + 8 + blk.length) = r := by
  rw [encRecord] at h
  simp only [List.append_assoc] at h
  have r1 := read_int_enc h hb
  have d1 := drop_step h (enc32_length blk.length)
  have d2 := drop_step d1 rfl
  have r2 := read_int_enc d2 hb
  have hp : pos + 4 + blk.length + 4 = pos + 8 + blk.length := by omega
  constructor
  · rw [Dcd._skip_record, r1, bind_ok_law]
    show _read_int data (pos + 4 + blk.length) >>= _ = _
    rw [r2, bind_ok_law]
    show (if blk.length = blk.length then Except.ok (pos + 4 + blk.length + 4)
        else Except.error DCDError.corruptRecordError) =
      Except.ok (pos + 8 + blk.length)
    rw [if_pos rfl, hp]
  · rw [← hp]
    exact drop_step d2 (enc32_length blk.length)

/-- `_read_frame_header` followed by `_skip_frame` consumes exactly one
well-formed encoded frame: `frameSize N` bytes. -/
theorem frame_enc {data : List Nat} {pos N : Nat} {f : FrameData}
    {r : List Nat} (h : data.drop pos = encFrame f.box f.xs f.ys f.zs ++ r)
    (hf : f.wf N) (hN : 4 * N < 4294967296) :
    ∃ fh, Dcd._read_frame_header data pos = .ok (fh, pos + 56) ∧
      Dcd._skip_frame data (pos + 56) = .ok (pos + frameSize N) ∧
      data.drop (pos + frameSize N) = r := by
  obtain ⟨hbox, hxs, hys, hzs⟩ := hf
  rw [encFrame] at h
  simp only [List.append_assoc] at h
  obtain ⟨fh, hfh, hd⟩ := read_frame_header_enc h hbox
  have s1 := skip_record_enc hd (by rw [hxs]; exact hN)
  rw [hxs] at s1
  have s2 := skip_record_enc s1.2 (by rw [hys]; exact hN)
  rw [hys] at s2
  have s3 := skip_record_enc s2.2 (by rw [hzs]; exact hN)
  rw [hzs] at s3
  have hp : pos + 56 + 8 + 4 * N + 8 + 4 * N + 8 + 4 * N = pos + frameSize N := by
    rw [frameSize]; omega
  refine ⟨fh, hfh, ?_, ?_⟩
  · rw [Dcd._skip_frame, s1.1, bind_ok_law, s2.1, bind_ok_law, s3.1, hp]
  · rw [← hp]
    exact s3.2

/-- At end of stream, `_read_frame_header` fails with `UnexpectedEOF`. -/
theorem read_frame_header_eof {data : List Nat} {pos : Nat}
    (h : data.length ≤ pos) :
    Dcd._read_frame_header data pos = .error .unexpectedEOF := by
  rw [Dcd._read_frame_header, read_int_eof h, bind_error_law]

/-- If the stream ends exactly after the encoded frames but more frames
were declared, the scan loop fails with `UnexpectedEOF`. -/
theorem scan_loop_trunc {data : List Nat} {N : Nat} :
    ∀ (fs : List FrameData) {pos m : Nat},
      (∀ f ∈ fs, f.wf N) → 4 * N < 4294967296 →
      data.drop pos = encFrames fs →
      Dcd._scan_loop data (fs.length + (m + 1)) pos =
        .error .unexpectedEOF := by
  intro fs
  induction fs with
  | nil =>
    intro pos m _ _ h
    have hle : data.length ≤ pos := by
      have := congrArg List.length h
      rw [List.length_drop] at this
      simp only [encFrames, List.map_nil, List.flatten_nil, List.length_nil] at this
      omega
    rw [List.length_nil, Nat.zero_add, Dcd._scan_loop,
      read_frame_header_eof hle, bind_error_law]
  | cons f fs ih =>
    intro pos m hwf hN h
    have hcons : encFrames (f :: fs) = encFrame f.box f.xs f.ys f.zs ++ encFrames fs := rfl
    have h' : data.drop pos = encFrame f.box f.xs f.ys f.zs ++ (encFrames fs ++ []) := by
      rw [List.append_nil, ← hcons]
      exact h
    obtain ⟨fh, hfh, hskip, hd⟩ := frame_enc h' (hwf f (List.mem_cons_self f fs)) hN
    rw [List.append_nil] at hd
    have ihh := ih (m := m) (fun g hg => hwf g (List.mem_cons_of_mem _ hg)) hN hd
    have hcount : (f :: fs).length + (m + 1) = (fs.length + (m + 1)) + 1 := by
      rw [List.length_cons]; omega
    rw [hcount, Dcd._scan_loop, hfh, bind_ok_law]
    show Dcd._skip_frame data (pos + 56) >>= _ = _
    rw [hskip, bind_ok_law]
    show Dcd._scan_loop data (fs.length + (m + 1)) (pos + frameSize N) >>= _ = _
    rw [ihh, bind_error_law]

/-- `_seek_n` with a nonnegative (Nat-cast) length is plain forward
cursor motion. -/
theorem seek_n_nat (w : Nat) : ∀ (n pos : Nat),
    _seek_n (w : Int) n pos = pos + n * w := by
  intro n
  induction n with
  | zero => intro pos; simp [_seek_n]
  | succ n ih =>
    intro pos
    have hng : ¬ ((pos : Int) + (w : Int) < 0) := by omega
    rw [_seek_n, if_neg hng,
      show ((pos : Int) + (w : Int)).toNat = pos + w from by omega, ih]
    ring

/-- The Python `int((title_section_size - 4) / 2)` for a two-title
section of width `2 * w`. -/
theorem len_title_two (w : Nat) :
    Int.tdiv (((4 + 2 * w : Nat) : Int) - 4) 2 = (w : Int) := by
  rw [show ((4 + 2 * w : Nat) : Int) - 4 = 2 * (w : Int) from by push_cast; ring,
    Int.mul_tdiv_cancel_left _ (by norm_num)]

/-- `_read_file_header` consumes exactly one well-formed encoded header
(leading record, two-title title record, particle-count marker):
`116 + 2 * w` bytes, and returns the declared fields. -/
theorem read_file_header_enc {data : List Nat} {pos : Nat}
    {k s per ts tstep iuc cver w np : Nat} {junk titles rest : List Nat}
    (hk : k < 4294967296) (hs : s < 4294967296) (hper : per < 4294967296)
    (hts : ts < 4294967296) (hjunk : junk.length = 5)
    (htstep : tstep < 4294967296) (hiuc : iuc < 4294967296)
    (hcver : cver < 4294967296) (hw : 4 + 2 * w < 4294967296)
    (htitles : titles.length = 2 * w) (hnp : np < 4294967296)
    (h : data.drop pos =
      encHeaderRecord 84 magicCORD k s per ts junk tstep iuc
          (List.replicate 8 0) cver 84 ++
        (encTitle (4 + 2 * w) 2 titles ++ (encMarker np ++ rest))) :
    Dcd._read_file_header data pos =
      .ok (⟨k, s, per, ts, tstep, iuc, cver, np⟩, pos + (116 + 2 * w)) ∧
      data.drop (pos + (116 + 2 * w)) = rest := by
  rw [encHeaderRecord, encTitle, encMarker] at h
  simp only [List.append_assoc] at h
  have r1 := read_int_enc h (by norm_num)
  have d1 := drop_step h (enc32_length 84)
  have r2 := readBytes_of_drop d1 (by rfl : magicCORD.length = 4)
  have d2 := drop_step d1 (by rfl : magicCORD.length = 4)
  have r3 := read_int_enc d2 hk
  have d3 := drop_step d2 (enc32_length k)
  have r4 := read_int_enc d3 hs
  have d4 := drop_step d3 (enc32_length s)
  have r5 := read_int_enc d4 hper
  have d5 := drop_step d4 (enc32_length per)
  have r6 := read_int_enc d5 hts
  have d6 := drop_step d5 (enc32_length ts)
  have sj := skip_ints_enc junk d6
  rw [hjunk] at sj
  have d7 := sj.2
  have r8 := read_int_enc d7 htstep
  have d8 := drop_step d7 (enc32_length tstep)
  have r9 := read_int_enc d8 hiuc
  have d9 := drop_step d8 (enc32_length iuc)
  have sz := zero_ints_ok 8 d9
  have d10 := sz.2
  have r11 := read_int_enc d10 hcver
  have d11 := drop_step d10 (enc32_length cver)
  have r12 := read_int_enc d11 (by norm_num)
  have d12 := drop_step d11 (enc32_length 84)
  have r13 := read_int_enc d12 hw
  have d13 := drop_step d12 (enc32_length (4 + 2 * w))
  have r14 := read_int_enc d13 (by norm_num)
  have d14 := drop_step d13 (enc32_length 2)
  have dT := drop_step d14 htitles
  have rT := read_int_enc dT hw
  have dU := drop_step dT (enc32_length (4 + 2 * w))
  have rU := read_int_enc dU (by norm_num)
  have dV := drop_step dU (enc32_length 4)
  have rV := read_int_enc dV hnp
  have dW := drop_step dV (enc32_length np)
  have rW := read_int_enc dW (by norm_num)
  have dX := drop_step dW (enc32_length 4)
  have hfin : pos + 4 + 4 + 4 + 4 + 4 + 4 + 4 * 5 + 4 + 4 + 4 * 8 + 4 + 4 + 4 + 4 + 2 * w + 4 + 4 + 4 + 4 = pos + (116 + 2 * w) := by omega
  constructor
  · rw [Dcd._read_file_header, r1, bind_ok_law]
    show (if (84 : Nat) = 84 then _ else Except.error DCDError.formatError) = _
    rw [if_pos rfl]
    show readBytes data (pos + 4) 4 >>= _ = _
    rw [r2, bind_ok_law]
    show (if magicCORD = magicCORD then _ else Except.error DCDError.formatError) = _
    rw [if_pos rfl]
    show _read_int data (pos + 4 + 4) >>= _ = _
    rw [r3, bind_ok_law]
    show _read_int data (pos + 4 + 4 + 4) >>= _ = _
    rw [r4, bind_ok_law]
    show _read_int data (pos + 4 + 4 + 4 + 4) >>= _ = _
    rw [r5, bind_ok_law]
    show _read_int data (pos + 4 + 4 + 4 + 4 + 4) >>= _ = _
    rw [r6, bind_ok_law]
    show _skip_ints data 5 (pos + 4 + 4 + 4 + 4 + 4 + 4) >>= _ = _
    rw [sj.1, bind_ok_law]
    show _read_int data (pos + 4 + 4 + 4 + 4 + 4 + 4 + 4 * 5) >>= _ = _
    rw [r8, bind_ok_law]
    show _read_int data (pos + 4 + 4 + 4 + 4 + 4 + 4 + 4 * 5 + 4) >>= _ = _
    rw [r9, bind_ok_law]
    show _zero_ints data 8 (pos + 4 + 4 + 4 + 4 + 4 + 4 + 4 * 5 + 4 + 4) >>= _ = _
    rw [sz.1, bind_ok_law]
    show _read_int data (pos + 4 + 4 + 4 + 4 + 4 + 4 + 4 * 5 + 4 + 4 + 4 * 8) >>= _ = _
    rw [r11, bind_ok_law]
    show _read_int data (pos + 4 + 4 + 4 + 4 + 4 + 4 + 4 * 5 + 4 + 4 + 4 * 8 + 4) >>= _ = _
    rw [r12, bind_ok_law]
    show (if (84 : Nat) = 84 then _ else Except.error DCDError.corruptRecordError) = _
    rw [if_pos rfl]
    show _read_int data (pos + 4 + 4 + 4 + 4 + 4 + 4 + 4 * 5 + 4 + 4 + 4 * 8 + 4 + 4) >>= _ = _
    rw [r13, bind_ok_law]
    show _read_int data (pos + 4 + 4 + 4 + 4 + 4 + 4 + 4 * 5 + 4 + 4 + 4 * 8 + 4 + 4 + 4) >>= _ = _
    rw [r14, bind_ok_law]
    show _read_int data (_seek_n (Int.tdiv (((4 + 2 * w : Nat) : Int) - 4) 2) 2 (pos + 4 + 4 + 4 + 4 + 4 + 4 + 4 * 5 + 4 + 4 + 4 * 8 + 4 + 4 + 4 + 4)) >>= _ = _
    rw [len_title_two, seek_n_nat w 2 (pos + 4 + 4 + 4 + 4 + 4 + 4 + 4 * 5 + 4 + 4 + 4 * 8 + 4 + 4 + 4 + 4)]
    show _read_int data (pos + 4 + 4 + 4 + 4 + 4 + 4 + 4 * 5 + 4 + 4 + 4 * 8 + 4 + 4 + 4 + 4 + 2 * w) >>= _ = _
    rw [rT, bind_ok_law]
    show (if (4 + 2 * w : Nat) = 4 + 2 * w then _ else Except.error DCDError.corruptRecordError) = _
    rw [if_pos rfl]
    show _read_int data (pos + 4 + 4 + 4 + 4 + 4 + 4 + 4 * 5 + 4 + 4 + 4 * 8 + 4 + 4 + 4 + 4 + 2 * w + 4) >>= _ = _
    rw [rU, bind_ok_law]
    show (if (4 : Nat) = 4 then _ else Except.error DCDError.formatError) = _
    rw [if_pos rfl]
    show _read_int data (pos + 4 + 4 + 4 + 4 + 4 + 4 + 4 * 5 + 4 + 4 + 4 * 8 + 4 + 4 + 4 + 4 + 2 * w + 4 + 4) >>= _ = _
    rw [rV, bind_ok_law]
    show _read_int data (pos + 4 + 4 + 4 + 4 + 4 + 4 + 4 * 5 + 4 + 4 + 4 * 8 + 4 + 4 + 4 + 4 + 2 * w + 4 + 4 + 4) >>= _ = _
    rw [rW, bind_ok_law]
    show (if (4 : Nat) = 4 then
        Except.ok ((⟨k, s, per, ts, tstep, iuc, cver, np⟩ : DCDFileHeader),
          pos + 4 + 4 + 4 + 4 + 4 + 4 + 4 * 5 + 4 + 4 + 4 * 8 + 4 + 4 + 4 + 4 + 2 * w + 4 + 4 + 4 + 4)
      else Except.error DCDError.corruptRecordError) = _
    rw [if_pos rfl, hfin]
  · rw [← hfin]
    exact dX

/-- A complete encoded stream (spec §6): leading header record declaring
`k` frames, a title record with exactly two title strings of width `w`,
the particle-count marker record, then the encoded frames. -/
def encodeDCD (k s per ts : Nat) (junk : List Nat) (tstep iuc cver w : Nat)
    (titles : List Nat) (np : Nat) (fs : List FrameData) : List Nat :=
  encHeaderRecord 84 magicCORD k s per ts junk tstep iuc
      (List.replicate 8 0) cver 84 ++
    (encTitle (4 + 2 * w) 2 titles ++ (encMarker np ++ encFrames fs))

/-- A stream that is well formed per the wire format of spec §6 — every
record correctly bracketed by matching length fields — but carrying exactly
ONE title string (of width 2, so `title_section_size = 6`), declaring and
containing one frame. -/
def c1CexStream : List Nat :=
  encHeaderRecord 84 magicCORD 1 0 0 0 [0, 0, 0, 0, 0] 0 1
      (List.replicate 8 0) 24 84 ++
    (encTitle 6 1 [5, 7] ++
      (encMarker 1 ++
        encFrames [⟨List.replicate 48 0, [1, 2, 3, 4], [5, 6, 7, 8],
          [9, 10, 11, 12]⟩]))

/-- Frames used by the C1 witness. -/
def c1WitnessFrames : List FrameData :=
  [⟨List.replicate 48 0, [1, 2, 3, 4], [5, 6, 7, 8], [9, 10, 11, 12]⟩,
   ⟨List.replicate 48 0, [4, 3, 2, 1], [8, 7, 6, 5], [12, 11, 10, 9]⟩]

/-- Errors of the scan driver, which annotates a frame-skipping failure
with the progress made (spec §4.3 step 6, §7). -/
inductive ScanError where
  | headerFailed (e : DCDError)
  | frameFailed (e : DCDError) (framesIndexed : Nat)
deriving DecidableEq, Repr

/-- Modelled from the spec: the frame loop of the scan driver.  The Cython
`_scan` fails with a bare assertion; the repository's driver around it
(not under `src/`) reports the failure together with the number of frames
already successfully indexed (`done`), per §4.3 step 6: "fail with
`UnexpectedEOF` naming the last successfully indexed frame number". -/
def _scan_reported_loop (data : List Nat) :
    Nat → Nat → Nat → Except ScanError (List Nat)
  | 0, _, _ => .ok []
  | n + 1, pos, done =>
    match (do
        let (_, q) ← Dcd._read_frame_header data pos
        Dcd._skip_frame data q) with
    | .error e => .error (.frameFailed e done)
    | .ok p1 =>
      match _scan_reported_loop data n p1 (done + 1) with
      | .error e => .error e
      | .ok rest => .ok (pos :: rest)

/-- Modelled from the spec: the scan driver — `_scan` with truncation
failures annotated by the last successfully indexed frame. -/
def _scan_reported (data : List Nat) (pos : Nat) :
    Except ScanError (DCDFileHeader × List Nat) :=
  match Dcd._read_file_header data pos with
  | .error e => .error (.headerFailed e)
  | .ok (file_header, p) =>
    match _scan_reported_loop data file_header.num_frames p 0 with
    | .error e => .error e
    | .ok offsets => .ok (file_header, offsets)

/-- The reporting loop on a stream ending right after `fs` encoded frames,
with more frames to go: fails naming exactly the frames indexed so far. -/
theorem scan_reported_trunc {data : List Nat} {N : Nat} :
    ∀ (fs : List FrameData) {pos m done : Nat},
      (∀ f ∈ fs, f.wf N) → 4 * N < 4294967296 →
      data.drop pos = encFrames fs →
      _scan_reported_loop data (fs.length + (m + 1)) pos done =
        .error (.frameFailed .unexpectedEOF (done + fs.length)) := by
  intro fs
  induction fs with
  | nil =>
    intro pos m done _ _ h
    have hle : data.length ≤ pos := by
      have := congrArg List.length h
      rw [List.length_drop] at this
      simp only [encFrames, List.map_nil, List.flatten_nil, List.length_nil] at this
      omega
    rw [List.length_nil, Nat.zero_add, _scan_reported_loop,
      read_frame_header_eof hle, bind_error_law]
    rfl
  | cons f fs ih =>
    intro pos m done hwf hN h
    have hcons : encFrames (f :: fs) =
        encFrame f.box f.xs f.ys f.zs ++ encFrames fs := rfl
    have h' : data.drop pos =
        encFrame f.box f.xs f.ys f.zs ++ (encFrames fs ++ []) := by
      rw [List.append_nil, ← hcons]
      exact h
    obtain ⟨fh, hfh, hskip, hd⟩ := frame_enc h' (hwf f (List.mem_cons_self f fs)) hN
    rw [List.append_nil] at hd
    have ihh := @ih (pos + frameSize N) m (done + 1)
      (fun g hg => hwf g (List.mem_cons_of_mem _ hg)) hN hd
    have hcount : (f :: fs).length + (m + 1) = (fs.length + (m + 1)) + 1 := by
      rw [List.length_cons]; omega
    rw [hcount, _scan_reported_loop, hfh, bind_ok_law]
    show (match (Dcd._skip_frame data (pos + 56)) with
      | .error e => Except.error (ScanError.frameFailed e done)
      | .ok p1 =>
        match _scan_reported_loop data (fs.length + (m + 1)) p1 (done + 1) with
        | .error e => .error e
        | .ok rest => .ok (pos :: rest)) = _
    rw [hskip]
    show (match _scan_reported_loop data (fs.length + (m + 1))
        (pos + frameSize N) (done + 1) with
      | .error e => Except.error e
      | .ok rest => .ok (pos :: rest)) = _
    rw [ihh]
    show Except.error (ScanError.frameFailed DCDError.unexpectedEOF (done + 1 + fs.length)) =
      Except.error (ScanError.frameFailed DCDError.unexpectedEOF (done + (f :: fs).length))
    rw [show done + 1 + fs.length = done + (f :: fs).length from by
      rw [List.length_cons]; omega]

/-! ## Truncation at an arbitrary byte: EOF lemmas -/

/-- A read that would cross the end of the stream fails. -/
theorem readBytes_eof {data : List Nat} {pos n : Nat}
    (h : data.length < pos + n) (hn : 0 < n) :
    readBytes data pos n = .error .unexpectedEOF := by
  rw [readBytes]
  have hne : ((data.drop pos).take n).length ≠ n := by
    simp only [List.length_take, List.length_drop]
    omega
  simp only [if_neg hne]

theorem read_int_past {data : List Nat} {pos : Nat}
    (h : data.length < pos + 4) :
    _read_int data pos = .error .unexpectedEOF := by
  rw [_read_int, readBytes_eof h (by norm_num), bind_error_law]

theorem read_double_past {data : List Nat} {pos : Nat}
    (h : data.length < pos + 8) :
    _read_double data pos = .error .unexpectedEOF := by
  rw [_read_double, readBytes_eof h (by norm_num), bind_error_law]

/-- A read that fits in the stream succeeds (with whatever bytes). -/
theorem read_int_ok_of_le {data : List Nat} {pos : Nat}
    (h : pos + 4 ≤ data.length) :
    ∃ v, _read_int data pos = .ok (v, pos + 4) := by
  have hlen : ((data.drop pos).take 4).length = 4 := by
    simp only [List.length_take, List.length_drop]
    omega
  refine ⟨leVal ((data.drop pos).take 4), ?_⟩
  rw [_read_int, readBytes]
  simp only [if_pos hlen]
  rfl

theorem read_double_ok_of_le {data : List Nat} {pos : Nat}
    (h : pos + 8 ≤ data.length) :
    ∃ v, _read_double data pos = .ok (v, pos + 8) := by
  have hlen : ((data.drop pos).take 8).length = 8 := by
    simp only [List.length_take, List.length_drop]
    omega
  refine ⟨leVal ((data.drop pos).take 8), ?_⟩
  rw [_read_double, readBytes]
  simp only [if_pos hlen]
  rfl

/-- `_skip_record` fails when even its length prefix is cut off. -/
theorem skip_record_past {data : List Nat} {pos : Nat}
    (h : data.length < pos + 4) :
    Dcd._skip_record data pos = .error .unexpectedEOF := by
  rw [Dcd._skip_record, read_int_past h, bind_error_law]

/-- `_skip_record` fails when the prefix is intact but the stream ends
before the trailing length field. -/
theorem skip_record_trunc {data : List Nat} {pos L : Nat} {r : List Nat}
    (hpre : data.drop pos = enc32 L ++ r) (hL : L < 4294967296)
    (hcut : data.length < pos + 8 + L) :
    Dcd._skip_record data pos = .error .unexpectedEOF := by
  rw [Dcd._skip_record, read_int_enc hpre hL, bind_ok_law]
  show _read_int data (pos + 4 + L) >>= _ = _
  rw [read_int_past (by omega), bind_error_law]

theorem take_peel {a b : List Nat} {m : Nat} (h : a.length ≤ m) :
    (a ++ b).take m = a ++ b.take (m - a.length) := by
  rw [List.take_append_eq_append_take, List.take_of_length_le h]

theorem take_bound {a b : List Nat} {m : Nat} (h : m ≤ a.length) :
    (a ++ b).take m = a.take m := by
  rw [List.take_append_eq_append_take, Nat.sub_eq_zero_of_le h, List.take_zero,
    List.append_nil]

theorem encRecord_length (p : List Nat) : (encRecord p).length = p.length + 8 := by
  simp only [encRecord, List.length_append, enc32_length]
  omega

theorem encFrame_length {f : FrameData} {N : Nat} (hf : f.wf N) :
    (encFrame f.box f.xs f.ys f.zs).length = frameSize N := by
  obtain ⟨h1, h2, h3, h4⟩ := hf
  simp only [encFrame, List.length_append, encRecord_length, h1, h2, h3, h4,
    frameSize]
  omega

theorem encFrames_append (a b : List FrameData) :
    encFrames (a ++ b) = encFrames a ++ encFrames b := by
  simp [encFrames]

theorem encHeaderRecord_length (l : Nat) (mg : List Nat)
    (k s per ts : Nat) (junk : List Nat) (tstep iuc : Nat) (res : List Nat)
    (cv tr : Nat) :
    (encHeaderRecord l mg k s per ts junk tstep iuc res cv tr).length =
      36 + mg.length + 4 * junk.length + 4 * res.length := by
  simp only [encHeaderRecord, List.length_append, enc32_length, encInts_length]
  omega

theorem encTitle_length (tss nt : Nat) (titles : List Nat) :
    (encTitle tss nt titles).length = 12 + titles.length := by
  simp only [encTitle, List.length_append, enc32_length]
  omega

theorem encMarker_length (np : Nat) : (encMarker np).length = 12 := rfl

/-- A frame-header record cut anywhere before its 56th byte makes
`_read_frame_header` fail with `UnexpectedEOF`: none of the seven leading
values is checked before the trailing read, so only byte counts matter. -/
theorem read_frame_header_trunc {data : List Nat} {pos m : Nat}
    (hm : m < 56) (hlen : data.length = pos + m) :
    Dcd._read_frame_header data pos = .error .unexpectedEOF := by
  rw [Dcd._read_frame_header]
  rcases Nat.lt_or_ge m 4 with h0 | h0
  · rw [read_int_past (by omega), bind_error_law]
  obtain ⟨v0, r0⟩ := read_int_ok_of_le (show pos + 4 ≤ data.length by omega)
  rw [r0, bind_ok_law]
  show _read_double data (pos + 4) >>= _ = _
  rcases Nat.lt_or_ge m 12 with h1 | h1
  · rw [read_double_past (by omega), bind_error_law]
  obtain ⟨v1, r1⟩ := read_double_ok_of_le (show pos + 4 + 8 ≤ data.length by omega)
  rw [r1, bind_ok_law]
  show _read_double data (pos + 4 + 8) >>= _ = _
  rcases Nat.lt_or_ge m 20 with h2 | h2
  · rw [read_double_past (by omega), bind_error_law]
  obtain ⟨v2, r2⟩ := read_double_ok_of_le
    (show pos + 4 + 8 + 8 ≤ data.length by omega)
  rw [r2, bind_ok_law]
  show _read_double data (pos + 4 + 8 + 8) >>= _ = _
  rcases Nat.lt_or_ge m 28 with h3 | h3
  · rw [read_double_past (by omega), bind_error_law]
  obtain ⟨v3, r3⟩ := read_double_ok_of_le
    (show pos + 4 + 8 + 8 + 8 ≤ data.length by omega)
  rw [r3, bind_ok_law]
  show _read_double data (pos + 4 + 8 + 8 + 8) >>= _ = _
  rcases Nat.lt_or_ge m 36 with h4 | h4
  · rw [read_double_past (by omega), bind_error_law]
  obtain ⟨v4, r4⟩ := read_double_ok_of_le
    (show pos + 4 + 8 + 8 + 8 + 8 ≤ data.length by omega)
  rw [r4, bind_ok_law]
  show _read_double data (pos + 4 + 8 + 8 + 8 + 8) >>= _ = _
  rcases Nat.lt_or_ge m 44 with h5 | h5
  · rw [read_double_past (by omega), bind_error_law]
  obtain ⟨v5, r5⟩ := read_double_ok_of_le
    (show pos + 4 + 8 + 8 + 8 + 8 + 8 ≤ data.length by omega)
  rw [r5, bind_ok_law]
  show _read_double data (pos + 4 + 8 + 8 + 8 + 8 + 8) >>= _ = _
  rcases Nat.lt_or_ge m 52 with h6 | h6
  · rw [read_double_past (by omega), bind_error_law]
  obtain ⟨v6, r6⟩ := read_double_ok_of_le
    (show pos + 4 + 8 + 8 + 8 + 8 + 8 + 8 ≤ data.length by omega)
  rw [r6, bind_ok_law]
  show _read_int data (pos + 4 + 8 + 8 + 8 + 8 + 8 + 8) >>= _ = _
  rw [read_int_past (by omega), bind_error_law]

/-- Cutting a single encoded frame at any byte `m < frameSize N` makes the
scan-side pair (header read, then three-record skip) fail with
`UnexpectedEOF`: either the header record itself is cut, or it completes at
`pos + 56` and one of the skipped coordinate records hits the end. -/
theorem frame_trunc_eof {data : List Nat} {pos N m : Nat} {f : FrameData}
    (hf : f.wf N) (hN : 4 * N < 4294967296)
    (hd : data.drop pos = (encFrame f.box f.xs f.ys f.zs).take m)
    (hm : m < frameSize N) (hlen : data.length = pos + m) :
    Dcd._read_frame_header data pos = .error .unexpectedEOF ∨
      ∃ fh, Dcd._read_frame_header data pos = .ok (fh, pos + 56) ∧
        Dcd._skip_frame data (pos + 56) = .error .unexpectedEOF := by
  obtain ⟨hbox, hxs, hys, hzs⟩ := hf
  rcases Nat.lt_or_ge m 56 with h56 | h56
  · exact Or.inl (read_frame_header_trunc h56 hlen)
  right
  have hd1 : data.drop pos = encRecord f.box ++
      ((encRecord f.xs ++ (encRecord f.ys ++ encRecord f.zs)).take (m - 56)) := by
    rw [hd, encFrame, List.append_assoc, List.append_assoc,
      take_peel (by rw [encRecord_length, hbox]; omega),
      encRecord_length, hbox]
  obtain ⟨fh, hfh, hd2⟩ := read_frame_header_enc hd1 hbox
  refine ⟨fh, hfh, ?_⟩
  rw [Dcd._skip_frame]
  rcases Nat.lt_or_ge m 60 with h60 | h60
  · rw [skip_record_past (show data.length < pos + 56 + 4 by omega),
      bind_error_law]
  rcases Nat.lt_or_ge m (64 + 4 * N) with h64 | h64
  · have hpre : data.drop (pos + 56) = enc32 (4 * N) ++
        ((f.xs ++ (enc32 (4 * N) ++ (encRecord f.ys ++ encRecord f.zs))).take
          (m - 60)) := by
      rw [hd2, encRecord, hxs]
      simp only [List.append_assoc]
      rw [take_peel (by rw [enc32_length]; omega), enc32_length,
        show m - 56 - 4 = m - 60 from by omega]
    rw [skip_record_trunc hpre hN (by omega), bind_error_law]
  have hd3 : data.drop (pos + 56) = encRecord f.xs ++
      ((encRecord f.ys ++ encRecord f.zs).take (m - (64 + 4 * N))) := by
    rw [hd2, take_peel (by rw [encRecord_length, hxs]; omega),
      encRecord_length, hxs,
      show m - 56 - (4 * N + 8) = m - (64 + 4 * N) from by omega]
  have s1 := skip_record_enc hd3 (by rw [hxs]; omega)
  rw [hxs] at s1
  rw [s1.1, bind_ok_law]
  show Dcd._skip_record data (pos + 56 + 8 + 4 * N) >>= _ = _
  rcases Nat.lt_or_ge m (68 + 4 * N) with h68 | h68
  · rw [skip_record_past (show data.length < pos + 56 + 8 + 4 * N + 4 by omega),
      bind_error_law]
  rcases Nat.lt_or_ge m (72 + 8 * N) with h72 | h72
  · have hpre2 : data.drop (pos + 56 + 8 + 4 * N) = enc32 (4 * N) ++
        ((f.ys ++ (enc32 (4 * N) ++ encRecord f.zs)).take
          (m - (68 + 4 * N))) := by
      rw [s1.2, encRecord, hys]
      simp only [List.append_assoc]
      rw [take_peel (by rw [enc32_length]; omega), enc32_length,
        show m - (64 + 4 * N) - 4 = m - (68 + 4 * N) from by omega]
    rw [skip_record_trunc hpre2 hN (by omega), bind_error_law]
  have hd4 : data.drop (pos + 56 + 8 + 4 * N) = encRecord f.ys ++
      ((encRecord f.zs).take (m - (72 + 8 * N))) := by
    rw [s1.2, take_peel (by rw [encRecord_length, hys]; omega),
      encRecord_length, hys,
      show m - (64 + 4 * N) - (4 * N + 8) = m - (72 + 8 * N) from by omega]
  have s2 := skip_record_enc hd4 (by rw [hys]; omega)
  rw [hys] at s2
  rw [s2.1, bind_ok_law]
  show Dcd._skip_record data (pos + 56 + 8 + 4 * N + 8 + 4 * N) = _
  rcases Nat.lt_or_ge m (76 + 8 * N) with h76 | h76
  · exact skip_record_past
      (show data.length < pos + 56 + 8 + 4 * N + 8 + 4 * N + 4 by omega)
  have hpre3 : data.drop (pos + 56 + 8 + 4 * N + 8 + 4 * N) = enc32 (4 * N) ++
      ((f.zs ++ enc32 (4 * N)).take (m - (76 + 8 * N))) := by
    rw [s2.2, encRecord, hzs]
    simp only [List.append_assoc]
    rw [take_peel (by rw [enc32_length]; omega), enc32_length,
      show m - (72 + 8 * N) - 4 = m - (76 + 8 * N) from by omega]
  exact skip_record_trunc hpre3 hN
    (by rw [frameSize] at hm; omega)

/-- The scan loop on a stream holding `fsdone` complete frames and then a
frame cut at byte `m`, with at least one more frame declared: it fails with
`UnexpectedEOF` wherever the cut falls inside the frame. -/
theorem scan_loop_midtrunc {data : List Nat} {N : Nat} :
    ∀ (fsdone : List FrameData) {pos m x : Nat} (f : FrameData),
      (∀ g ∈ fsdone, g.wf N) → f.wf N → 4 * N < 4294967296 →
      m < frameSize N →
      data.drop pos =
        encFrames fsdone ++ (encFrame f.box f.xs f.ys f.zs).take m →
      data.length = pos + (encFrames fsdone).length + m →
      Dcd._scan_loop data (fsdone.length + (x + 1)) pos =
        .error .unexpectedEOF := by
  intro fsdone
  induction fsdone with
  | nil =>
    intro pos m x f _ hf hN hm hd hlen
    have hd0 : data.drop pos = (encFrame f.box f.xs f.ys f.zs).take m := by
      simpa [encFrames] using hd
    have hlen0 : data.length = pos + m := by
      simpa [encFrames] using hlen
    rw [List.length_nil, Nat.zero_add, Dcd._scan_loop]
    rcases frame_trunc_eof hf hN hd0 hm hlen0 with hH | ⟨fh, hfh, hskip⟩
    · rw [hH, bind_error_law]
    · rw [hfh, bind_ok_law]
      show Dcd._skip_frame data (pos + 56) >>= _ = _
      rw [hskip, bind_error_law]
  | cons g fsdone ih =>
    intro pos m x f hwfd hf hN hm hd hlen
    have hg : g.wf N := hwfd g (List.mem_cons_self g fsdone)
    have hcons : encFrames (g :: fsdone) =
        encFrame g.box g.xs g.ys g.zs ++ encFrames fsdone := rfl
    rw [hcons, List.append_assoc] at hd
    obtain ⟨fh, hfh, hskip, hd2⟩ := frame_enc hd hg hN
    have hlen2 : data.length =
        pos + frameSize N + (encFrames fsdone).length + m := by
      rw [hcons, List.length_append, encFrame_length hg] at hlen
      omega
    have ihh := @ih (pos + frameSize N) m x f
      (fun q hq => hwfd q (List.mem_cons_of_mem _ hq)) hf hN hm hd2 hlen2
    rw [show (g :: fsdone).length + (x + 1) = (fsdone.length + (x + 1)) + 1
        from by rw [List.length_cons]; omega,
      Dcd._scan_loop, hfh, bind_ok_law]
    show Dcd._skip_frame data (pos + 56) >>= _ = _
    rw [hskip, bind_ok_law]
    show Dcd._scan_loop data (fsdone.length + (x + 1)) (pos + frameSize N)
        >>= _ = _
    rw [ihh, bind_error_law]

/-- Reporting variant of `scan_loop_midtrunc`: the failure names exactly
the number of frames indexed before the cut one. -/
theorem scan_reported_midtrunc {data : List Nat} {N : Nat} :
    ∀ (fsdone : List FrameData) {pos m x dn : Nat} (f : FrameData),
      (∀ g ∈ fsdone, g.wf N) → f.wf N → 4 * N < 4294967296 →
      m < frameSize N →
      data.drop pos =
        encFrames fsdone ++ (encFrame f.box f.xs f.ys f.zs).take m →
      data.length = pos + (encFrames fsdone).length + m →
      _scan_reported_loop data (fsdone.length + (x + 1)) pos dn =
        .error (.frameFailed .unexpectedEOF (dn + fsdone.length)) := by
  intro fsdone
  induction fsdone with
  | nil =>
    intro pos m x dn f _ hf hN hm hd hlen
    have hd0 : data.drop pos = (encFrame f.box f.xs f.ys f.zs).take m := by
      simpa [encFrames] using hd
    have hlen0 : data.length = pos + m := by
      simpa [encFrames] using hlen
    rw [List.length_nil, Nat.zero_add, _scan_reported_loop]
    rcases frame_trunc_eof hf hN hd0 hm hlen0 with hH | ⟨fh, hfh, hskip⟩
    · rw [hH, bind_error_law]
      rfl
    · rw [hfh, bind_ok_law]
      show (match Dcd._skip_frame data (pos + 56) with
        | .error e => Except.error (ScanError.frameFailed e dn)
        | .ok p1 =>
          match _scan_reported_loop data x p1 (dn + 1) with
          | .error e => .error e
          | .ok rest => .ok (pos :: rest)) = _
      rw [hskip]
      rfl
  | cons g fsdone ih =>
    intro pos m x dn f hwfd hf hN hm hd hlen
    have hg : g.wf N := hwfd g (List.mem_cons_self g fsdone)
    have hcons : encFrames (g :: fsdone) =
        encFrame g.box g.xs g.ys g.zs ++ encFrames fsdone := rfl
    rw [hcons, List.append_assoc] at hd
    obtain ⟨fh, hfh, hskip, hd2⟩ := frame_enc hd hg hN
    have hlen2 : data.length =
        pos + frameSize N + (encFrames fsdone).length + m := by
      rw [hcons, List.length_append, encFrame_length hg] at hlen
      omega
    have ihh := @ih (pos + frameSize N) m x (dn + 1) f
      (fun q hq => hwfd q (List.mem_cons_of_mem _ hq)) hf hN hm hd2 hlen2
    rw [show (g :: fsdone).length + (x + 1) = (fsdone.length + (x + 1)) + 1
        from by rw [List.length_cons]; omega,
      _scan_reported_loop, hfh, bind_ok_law]
    show (match Dcd._skip_frame data (pos + 56) with
      | .error e => Except.error (ScanError.frameFailed e dn)
      | .ok p1 =>
        match _scan_reported_loop data (fsdone.length + (x + 1)) p1 (dn + 1)
            with
        | .error e => .error e
        | .ok rest => .ok (pos :: rest)) = _
    rw [hskip]
    show (match _scan_reported_loop data (fsdone.length + (x + 1))
        (pos + frameSize N) (dn + 1) with
      | .error e => (.error e : Except ScanError (List Nat))
      | .ok rest => .ok (pos :: rest)) = _
    rw [ihh]
    show Except.error (ScanError.frameFailed DCDError.unexpectedEOF
        (dn + 1 + fsdone.length)) = _
    rw [show dn + 1 + fsdone.length = dn + (g :: fsdone).length from by
      rw [List.length_cons]; omega]

/-- C4: if the stream is truncated — it is the prefix, cut at byte
`116 + 2w + |encFrames fsdone| + m` for any `m < frameSize N`, of a
well-formed stream whose header declares all of `fsdone ++ f :: fsrest` —
then `_scan` fails with `UnexpectedEOF` (wherever inside frame `f` the cut
falls, including `m = 0`, a cut exactly at a frame boundary), and the scan
driver (modelled from the spec, the Cython `_scan` itself carrying no frame
number) reports the failure naming `fsdone.length`, the number of
successfully indexed frames. -/
theorem c4_truncation_unexpected_eof
    {s per ts tstep iuc cver w np N : Nat} {junk titles : List Nat}
    (fsdone : List FrameData) (f : FrameData) (fsrest : List FrameData)
    (m : Nat)
    (hs : s < 4294967296) (hper : per < 4294967296)
    (hts : ts < 4294967296) (hjunk : junk.length = 5)
    (htstep : tstep < 4294967296) (hiuc : iuc < 4294967296)
    (hcver : cver < 4294967296) (hw : 4 + 2 * w < 4294967296)
    (htitles : titles.length = 2 * w) (hnp : np < 4294967296)
    (hk : (fsdone ++ f :: fsrest).length < 4294967296)
    (hwf : ∀ g ∈ fsdone ++ f :: fsrest, g.wf N) (hN4 : 4 * N < 4294967296)
    (hm : m < frameSize N) :
    Dcd._scan ((encodeDCD (fsdone ++ f :: fsrest).length s per ts junk tstep
        iuc cver w titles np (fsdone ++ f :: fsrest)).take
        (116 + 2 * w + (encFrames fsdone).length + m)) 0 =
      .error .unexpectedEOF ∧
    _scan_reported ((encodeDCD (fsdone ++ f :: fsrest).length s per ts junk
        tstep iuc cver w titles np (fsdone ++ f :: fsrest)).take
        (116 + 2 * w + (encFrames fsdone).length + m)) 0 =
      .error (.frameFailed .unexpectedEOF fsdone.length) := by
  have hf : f.wf N :=
    hwf f (List.mem_append_right _ (List.mem_cons_self f fsrest))
  have hwfd : ∀ g ∈ fsdone, g.wf N :=
    fun g hg => hwf g (List.mem_append_left _ hg)
  have hflen : (encFrame f.box f.xs f.ys f.zs).length = frameSize N :=
    encFrame_length hf
  have hfs : encFrames (fsdone ++ f :: fsrest) =
      encFrames fsdone ++
        (encFrame f.box f.xs f.ys f.zs ++ encFrames fsrest) := by
    rw [encFrames_append]
    rfl
  have hH92 : (encHeaderRecord 84 magicCORD (fsdone ++ f :: fsrest).length
      s per ts junk tstep iuc (List.replicate 8 0) cver 84).length = 92 := by
    rw [encHeaderRecord_length, hjunk]
    rfl
  have hT2 : (encTitle (4 + 2 * w) 2 titles).length = 12 + 2 * w := by
    rw [encTitle_length, htitles]
  have hSlen : (encodeDCD (fsdone ++ f :: fsrest).length s per ts junk tstep
      iuc cver w titles np (fsdone ++ f :: fsrest)).length =
      116 + 2 * w + (encFrames (fsdone ++ f :: fsrest)).length := by
    set q := fsdone ++ f :: fsrest with hq
    rw [encodeDCD]
    simp only [List.length_append, encMarker_length]
    rw [hH92, hT2]
    omega
  have hfslen : (encFrames (fsdone ++ f :: fsrest)).length =
      (encFrames fsdone).length + (frameSize N + (encFrames fsrest).length) := by
    rw [hfs]
    simp only [List.length_append]
    rw [hflen]
  have hcle : 116 + 2 * w + (encFrames fsdone).length + m ≤
      (encodeDCD (fsdone ++ f :: fsrest).length s per ts junk tstep
        iuc cver w titles np (fsdone ++ f :: fsrest)).length := by
    rw [hSlen, hfslen]
    omega
  have hdrop : ((encodeDCD (fsdone ++ f :: fsrest).length s per ts junk tstep
      iuc cver w titles np (fsdone ++ f :: fsrest)).take
      (116 + 2 * w + (encFrames fsdone).length + m)).drop 0 =
      encHeaderRecord 84 magicCORD (fsdone ++ f :: fsrest).length s per ts
          junk tstep iuc (List.replicate 8 0) cver 84 ++
        (encTitle (4 + 2 * w) 2 titles ++
          (encMarker np ++
            (encFrames fsdone ++
              (encFrame f.box f.xs f.ys f.zs).take m))) := by
    rw [List.drop_zero, encodeDCD,
      take_peel (by rw [hH92]; omega), hH92,
      take_peel (by rw [hT2]; omega), hT2,
      take_peel (by rw [encMarker_length]; omega), encMarker_length,
      show 116 + 2 * w + (encFrames fsdone).length + m - 92 - (12 + 2 * w)
          - 12 = (encFrames fsdone).length + m from by omega,
      hfs, take_peel (show (encFrames fsdone).length ≤
        (encFrames fsdone).length + m from by omega),
      show (encFrames fsdone).length + m - (encFrames fsdone).length = m
        from by omega,
      take_bound (by rw [hflen]; omega)]
  obtain ⟨hh, hd⟩ := read_file_header_enc hk hs hper hts hjunk htstep hiuc
    hcver hw htitles hnp hdrop
  rw [Nat.zero_add] at hh hd
  have hTlen : ((encodeDCD (fsdone ++ f :: fsrest).length s per ts junk tstep
      iuc cver w titles np (fsdone ++ f :: fsrest)).take
      (116 + 2 * w + (encFrames fsdone).length + m)).length =
      116 + 2 * w + (encFrames fsdone).length + m := by
    rw [List.length_take]
    exact Nat.min_eq_left hcle
  have hcnt : (fsdone ++ f :: fsrest).length =
      fsdone.length + (fsrest.length + 1) := by
    simp [List.length_append]
  constructor
  · have hloop := @scan_loop_midtrunc _ N fsdone _ m fsrest.length f
      hwfd hf hN4 hm hd hTlen
    rw [← hcnt] at hloop
    rw [Dcd._scan, hh, bind_ok_law]
    show Dcd._scan_loop _ (fsdone ++ f :: fsrest).length (116 + 2 * w)
        >>= _ = _
    rw [hloop, bind_error_law]
  · have hrloop := @scan_reported_midtrunc _ N fsdone _ m fsrest.length 0 f
      hwfd hf hN4 hm hd hTlen
    rw [← hcnt] at hrloop
    rw [_scan_reported, hh]
    show (match _scan_reported_loop
        ((encodeDCD (fsdone ++ f :: fsrest).length s per ts junk tstep
          iuc cver w titles np (fsdone ++ f :: fsrest)).take
          (116 + 2 * w + (encFrames fsdone).length + m))
        (fsdone ++ f :: fsrest).length (116 + 2 * w) 0 with
      | .error e => Except.error e
      | .ok offsets =>
        Except.ok ((⟨(fsdone ++ f :: fsrest).length, s, per, ts, tstep, iuc,
          cver, np⟩ : DCDFileHeader), offsets)) = _
    rw [hrloop]
    show Except.error (ScanError.frameFailed DCDError.unexpectedEOF
        (0 + fsdone.length)) = _
    rw [Nat.zero_add]

/-- A complete one-particle frame used by the C4 witness. -/
def c4Frame1 : FrameData :=
  ⟨List.replicate 48 0, [1, 2, 3, 4], [5, 6, 7, 8], [9, 10, 11, 12]⟩

/-- The frame the C4 witness stream is cut inside of. -/
def c4Frame2 : FrameData :=
  ⟨List.replicate 48 7, [13, 14, 15, 16], [17, 18, 19, 20], [21, 22, 23, 24]⟩

/-- C4 witness: a two-frame stream cut 30 bytes into its second frame
(inside that frame's header record). -/
theorem c4_witness :
    Dcd._scan ((encodeDCD ([c4Frame1] ++ c4Frame2 :: []).length 1 2 3
        [9, 9, 9, 9, 9] 5 1 24 0 [] 1 ([c4Frame1] ++ c4Frame2 :: [])).take
        (116 + 2 * 0 + (encFrames [c4Frame1]).length + 30)) 0 =
      .error .unexpectedEOF ∧
    _scan_reported ((encodeDCD ([c4Frame1] ++ c4Frame2 :: []).length 1 2 3
        [9, 9, 9, 9, 9] 5 1 24 0 [] 1 ([c4Frame1] ++ c4Frame2 :: [])).take
        (116 + 2 * 0 + (encFrames [c4Frame1]).length + 30)) 0 =
      .error (.frameFailed .unexpectedEOF
        ([c4Frame1] : List FrameData).length) :=
  @c4_truncation_unexpected_eof 1 2 3 5 1 24 0 1 1 [9, 9, 9, 9, 9] []
    [c4Frame1] c4Frame2 [] 30
    (by decide) (by decide) (by decide) (by decide) (by decide) (by decide)
    (by decide) (by decide) (by decide) (by decide) (by decide)
    (by
      intro g hg
      simp only [List.cons_append, List.nil_append, List.mem_cons,
        List.not_mem_nil, or_false] at hg
      rcases hg with rfl | rfl
      · exact ⟨rfl, rfl, rfl, rfl⟩
      · exact ⟨rfl, rfl, rfl, rfl⟩)
    (by decide) (by decide)

/-- The concrete two-title header used by the C8 witness
(`w = 2`, titles `AB` and `CD`). -/
def c8WitnessHeader : List Nat :=
  encHeaderRecord 84 magicCORD 3 1 2 3 [9, 9, 9, 9, 9] 5 1
      (List.replicate 8 0) 24 84 ++
    (encTitle (4 + 2 * 2) 2 [65, 66, 67, 68] ++ (encMarker 7 ++ []))

theorem except_bind_ok_inv {α β : Type} {x : Except DCDError α}
    {f : α → Except DCDError β} {b : β} (h : x >>= f = .ok b) :
    ∃ a, x = .ok a ∧ f a = .ok b := by
  cases x with
  | error e => rw [bind_error_law] at h; cases h
  | ok a => rw [bind_ok_law] at h; exact ⟨a, rfl, h⟩

theorem readBytes_ok_inv {data : List Nat} {pos n : Nat} {bs : List Nat}
    {p' : Nat} (h : readBytes data pos n = .ok (bs, p')) :
    bs = (data.drop pos).take n ∧ bs.length = n ∧ p' = pos + n := by
  rw [readBytes] at h
  split at h
  · rename_i hl
    cases h
    exact ⟨rfl, hl, rfl⟩
  · cases h

theorem read_int_ok_inv {data : List Nat} {pos v p' : Nat}
    (h : _read_int data pos = .ok (v, p')) :
    v = leVal ((data.drop pos).take 4) ∧ ((data.drop pos).take 4).length = 4 ∧
      p' = pos + 4 := by
  rw [_read_int] at h
  obtain ⟨⟨bs, p⟩, h1, h2⟩ := except_bind_ok_inv h
  obtain ⟨hbs, hlen, hp⟩ := readBytes_ok_inv h1
  cases h2
  subst hbs hp
  exact ⟨rfl, hlen, rfl⟩

theorem skip_ints_ok_inv {data : List Nat} :
    ∀ {n pos p' : Nat}, _skip_ints data n pos = .ok p' → p' = pos + 4 * n := by
  intro n
  induction n with
  | zero => intro pos p' h; cases h; omega
  | succ n ih =>
    intro pos p' h
    rw [_skip_ints] at h
    obtain ⟨⟨v, p⟩, h1, h2⟩ := except_bind_ok_inv h
    obtain ⟨_, _, hp⟩ := read_int_ok_inv h1
    subst hp
    simp only at h2
    have := ih h2
    omega

theorem zero_ints_ok_inv {data : List Nat} :
    ∀ {n pos p' : Nat}, _zero_ints data n pos = .ok p' →
      ∀ i < n, _read_int data (pos + 4 * i) = .ok (0, pos + 4 * i + 4) := by
  intro n
  induction n with
  | zero => intro pos p' _ i hi; omega
  | succ n ih =>
    intro pos p' h i hi
    rw [_zero_ints] at h
    obtain ⟨⟨v, p⟩, h1, h2⟩ := except_bind_ok_inv h
    obtain ⟨_, _, hp⟩ := read_int_ok_inv h1
    subst hp
    simp only at h2
    split at h2
    · rename_i hv0
      subst hv0
      match i with
      | 0 =>
        rw [show pos + 4 * 0 = pos from by omega]
        exact h1
      | j + 1 =>
        have := ih h2 j (by omega)
        rw [show pos + 4 * (j + 1) = pos + 4 + 4 * j from by omega]
        exact this
    · cases h2

/-- A nonzero value at slot `i` of the reserved-zero loop fails with
`FormatError`. -/
theorem zero_ints_err_at {data : List Nat} :
    ∀ (i : Nat) {n pos v : Nat}, i < n →
      (∀ j < i, _read_int data (pos + 4 * j) = .ok (0, pos + 4 * j + 4)) →
      _read_int data (pos + 4 * i) = .ok (v, pos + 4 * i + 4) → v ≠ 0 →
      _zero_ints data n pos = .error .formatError := by
  intro i
  induction i with
  | zero =>
    intro n pos v hin _ hi hv
    match n, hin with
    | m + 1, _ =>
      rw [show pos + 4 * 0 = pos from by omega] at hi
      rw [_zero_ints, hi, bind_ok_law]
      show (if v = 0 then _zero_ints data m (pos + 4)
        else Except.error DCDError.formatError) = _
      rw [if_neg hv]
  | succ k ih =>
    intro n pos v hin hzeros hi hv
    match n, hin with
    | m + 1, _ =>
      have h0 := hzeros 0 (by omega)
      rw [show pos + 4 * 0 = pos from by omega] at h0
      rw [_zero_ints, h0, bind_ok_law]
      show (if (0 : Nat) = 0 then _zero_ints data m (pos + 4)
        else Except.error DCDError.formatError) = _
      rw [if_pos rfl]
      refine ih (by omega) ?_ ?_ hv
      · intro j hj
        have := hzeros (j + 1) (by omega)
        rw [show pos + 4 * (j + 1) = pos + 4 + 4 * j from by omega] at this
        exact this
      · rw [show pos + 4 + 4 * k = pos + 4 * (k + 1) from by omega]
        exact hi

/-- C5: the leading header record is accepted only if its declared length
is exactly 84, the magic tag is `CORD` and the eight reserved fields are
zero (conjunct 1, by inversion of a successful parse); violations of the
declared length, of the magic tag, or of a reserved-zero field each make
the header parse — and hence `_scan` — fail with `FormatError`, returning
no header and no offset index (conjuncts 2–4). -/
theorem c5_header_validation :
    (∀ (data : List Nat) (pos : Nat) (hdr : DCDFileHeader) (p' : Nat),
      Dcd._read_file_header data pos = .ok (hdr, p') →
        _read_int data pos = .ok (84, pos + 4) ∧
        readBytes data (pos + 4) 4 = .ok (magicCORD, pos + 4 + 4) ∧
        ∀ i < 8, _read_int data (pos + 52 + 4 * i) = .ok (0, pos + 52 + 4 * i + 4)) ∧
    (∀ (data : List Nat) (pos L p1 : Nat),
      _read_int data pos = .ok (L, p1) → L ≠ 84 →
        Dcd._read_file_header data pos = .error .formatError ∧
        Dcd._scan data pos = .error .formatError) ∧
    (∀ (data : List Nat) (pos p2 : Nat) (c : List Nat),
      _read_int data pos = .ok (84, pos + 4) →
      readBytes data (pos + 4) 4 = .ok (c, p2) → c ≠ magicCORD →
        Dcd._read_file_header data pos = .error .formatError ∧
        Dcd._scan data pos = .error .formatError) ∧
    (∀ (data : List Nat) (pos a3 a4 a5 a6 a8 a9 i v : Nat),
      _read_int data pos = .ok (84, pos + 4) →
      readBytes data (pos + 4) 4 = .ok (magicCORD, pos + 8) →
      _read_int data (pos + 8) = .ok (a3, pos + 12) →
      _read_int data (pos + 12) = .ok (a4, pos + 16) →
      _read_int data (pos + 16) = .ok (a5, pos + 20) →
      _read_int data (pos + 20) = .ok (a6, pos + 24) →
      _skip_ints data 5 (pos + 24) = .ok (pos + 44) →
      _read_int data (pos + 44) = .ok (a8, pos + 48) →
      _read_int data (pos + 48) = .ok (a9, pos + 52) →
      i < 8 →
      (∀ j < i, _read_int data (pos + 52 + 4 * j) = .ok (0, pos + 52 + 4 * j + 4)) →
      _read_int data (pos + 52 + 4 * i) = .ok (v, pos + 52 + 4 * i + 4) →
      v ≠ 0 →
        Dcd._read_file_header data pos = .error .formatError ∧
        Dcd._scan data pos = .error .formatError) := by
  refine ⟨?_, ?_, ?_, ?_⟩
  · intro data pos hdr p' hok
    rw [Dcd._read_file_header] at hok
    obtain ⟨⟨l84, p1⟩, h1, hok⟩ := except_bind_ok_inv hok
    obtain ⟨_, _, hp1⟩ := read_int_ok_inv h1
    subst hp1
    simp only at hok
    split at hok
    · rename_i h84
      subst h84
      obtain ⟨⟨c, p2⟩, h2, hok⟩ := except_bind_ok_inv hok
      obtain ⟨_, _, hp2⟩ := readBytes_ok_inv h2
      subst hp2
      simp only at hok
      split at hok
      · rename_i hcord
        subst hcord
        obtain ⟨⟨v3, p3⟩, h3, hok⟩ := except_bind_ok_inv hok
        obtain ⟨_, _, hp3⟩ := read_int_ok_inv h3
        subst hp3
        simp only at hok
        obtain ⟨⟨v4, p4⟩, h4, hok⟩ := except_bind_ok_inv hok
        obtain ⟨_, _, hp4⟩ := read_int_ok_inv h4
        subst hp4
        simp only at hok
        obtain ⟨⟨v5, p5⟩, h5, hok⟩ := except_bind_ok_inv hok
        obtain ⟨_, _, hp5⟩ := read_int_ok_inv h5
        subst hp5
        simp only at hok
        obtain ⟨⟨v6, p6⟩, h6, hok⟩ := except_bind_ok_inv hok
        obtain ⟨_, _, hp6⟩ := read_int_ok_inv h6
        subst hp6
        simp only at hok
        obtain ⟨p7, h7, hok⟩ := except_bind_ok_inv hok
        have hp7 := skip_ints_ok_inv h7
        subst hp7
        obtain ⟨⟨v8, p8⟩, h8, hok⟩ := except_bind_ok_inv hok
        obtain ⟨_, _, hp8⟩ := read_int_ok_inv h8
        subst hp8
        simp only at hok
        obtain ⟨⟨v9, p9⟩, h9, hok⟩ := except_bind_ok_inv hok
        obtain ⟨_, _, hp9⟩ := read_int_ok_inv h9
        subst hp9
        simp only at hok
        obtain ⟨p10, h10, hok⟩ := except_bind_ok_inv hok
        have hres := zero_ints_ok_inv h10
        refine ⟨h1, h2, ?_⟩
        intro i hi
        have := hres i hi
        rw [show pos + 4 + 4 + 4 + 4 + 4 + 4 + 4 * 5 + 4 + 4 + 4 * i =
          pos + 52 + 4 * i from by omega] at this
        exact this
      · cases hok
    · cases hok
  · intro data pos L p1 h1 hL
    have hhdr : Dcd._read_file_header data pos = .error .formatError := by
      rw [Dcd._read_file_header, h1, bind_ok_law]
      show (if L = 84 then _ else Except.error DCDError.formatError) = _
      rw [if_neg hL]
    exact ⟨hhdr, by rw [Dcd._scan, hhdr, bind_error_law]⟩
  · intro data pos p2 c h1 h2 hc
    have hhdr : Dcd._read_file_header data pos = .error .formatError := by
      rw [Dcd._read_file_header, h1, bind_ok_law]
      show (if (84 : Nat) = 84 then _ else Except.error DCDError.formatError) = _
      rw [if_pos rfl]
      show readBytes data (pos + 4) 4 >>= _ = _
      rw [h2, bind_ok_law]
      show (if c = magicCORD then _ else Except.error DCDError.formatError) = _
      rw [if_neg hc]
    exact ⟨hhdr, by rw [Dcd._scan, hhdr, bind_error_law]⟩
  · intro data pos a3 a4 a5 a6 a8 a9 i v h1 h2 h3 h4 h5 h6 h7 h8 h9 hin hzeros hiv hv
    have hz := @zero_ints_err_at data i 8 (pos + 52) v hin hzeros hiv hv
    have hhdr : Dcd._read_file_header data pos = .error .formatError := by
      rw [Dcd._read_file_header, h1, bind_ok_law]
      show (if (84 : Nat) = 84 then _ else Except.error DCDError.formatError) = _
      rw [if_pos rfl]
      show readBytes data (pos + 4) 4 >>= _ = _
      rw [h2, bind_ok_law]
      show (if magicCORD = magicCORD then _ else Except.error DCDError.formatError) = _
      rw [if_pos rfl]
      show _read_int data (pos + 8) >>= _ = _
      rw [h3, bind_ok_law]
      show _read_int data (pos + 12) >>= _ = _
      rw [h4, bind_ok_law]
      show _read_int data (pos + 16) >>= _ = _
      rw [h5, bind_ok_law]
      show _read_int data (pos + 20) >>= _ = _
      rw [h6, bind_ok_law]
      show _skip_ints data 5 (pos + 24) >>= _ = _
      rw [h7, bind_ok_law]
      show _read_int data (pos + 44) >>= _ = _
      rw [h8, bind_ok_law]
      show _read_int data (pos + 48) >>= _ = _
      rw [h9, bind_ok_law]
      show _zero_ints data 8 (pos + 52) >>= _ = _
      rw [hz, bind_error_law]
    exact ⟨hhdr, by rw [Dcd._scan, hhdr, bind_error_law]⟩

/-- A header whose third reserved field is nonzero (5). -/
def c5ResCex : List Nat :=
  encHeaderRecord 84 magicCORD 1 0 0 0 [0, 0, 0, 0, 0] 0 1
      [0, 0, 5, 0, 0, 0, 0, 0] 24 84 ++ []

/-- C5 witness: all four conjuncts at concrete inputs — a successful
parse, a wrong declared length (80), a wrong magic tag, and a nonzero
reserved field. -/
theorem c5_witness :
    (_read_int c8WitnessHeader 0 = .ok (84, 0 + 4) ∧
      readBytes c8WitnessHeader (0 + 4) 4 = .ok (magicCORD, 0 + 4 + 4) ∧
      _read_int c8WitnessHeader (0 + 52 + 4 * 3) =
        .ok (0, 0 + 52 + 4 * 3 + 4)) ∧
    (Dcd._read_file_header [80, 0, 0, 0] 0 = .error .formatError ∧
      Dcd._scan [80, 0, 0, 0] 0 = .error .formatError) ∧
    (Dcd._read_file_header [84, 0, 0, 0, 1, 2, 3, 4] 0 = .error .formatError ∧
      Dcd._scan [84, 0, 0, 0, 1, 2, 3, 4] 0 = .error .formatError) ∧
    (Dcd._read_file_header c5ResCex 0 = .error .formatError ∧
      Dcd._scan c5ResCex 0 = .error .formatError) :=
  ⟨(fun a => ⟨a.1, a.2.1, a.2.2 3 (by decide)⟩)
     (c5_header_validation.1 c8WitnessHeader 0 ⟨3, 1, 2, 3, 5, 1, 24, 7⟩
       (0 + (92 + (12 + 2 * 2) + 12)) (by rfl)),
   c5_header_validation.2.1 [80, 0, 0, 0] 0 80 4 (by rfl) (by decide),
   c5_header_validation.2.2.1 [84, 0, 0, 0, 1, 2, 3, 4] 0 8 [1, 2, 3, 4]
      (by rfl) (by rfl) (by decide),
   c5_header_validation.2.2.2 c5ResCex 0 1 0 0 0 0 1 2 5
      (by rfl) (by rfl) (by rfl) (by rfl) (by rfl) (by rfl) (by rfl)
      (by rfl) (by rfl) (by decide)
      (by intro j hj; interval_cases j <;> rfl) (by rfl) (by decide)⟩

/-- C2: every record read during scan or decode whose 4-byte trailing
length field disagrees with its 4-byte length prefix fails with
`CorruptRecordError` and never returns a value.  The conjuncts cover each
record reader of the source: (1) the frame-skipping record read of
`_skip_frame`; (2) the coordinate-block read of `_read_frame_body`;
(3) the byte-flip form — a record whose trailing field `t` is anything
other than the encoding of its prefix (e.g. any byte flipped) makes
`_skip_record` fail; (4) the frame-header record of
`_read_frame_header`; (5) the 84-byte leading record; (6) the title
record; (7) the particle-count marker record (trailing field must encode
4, the marker's prefix). -/
theorem c2_trailing_mismatch_fails :
    (∀ (data : List Nat) (pos L p1 T p2 : Nat),
      _read_int data pos = .ok (L, p1) → _read_int data (p1 + L) = .ok (T, p2) →
      T ≠ L → Dcd._skip_record data pos = .error .corruptRecordError) ∧
    (∀ (data : List Nat) (pos N L p1 p2 T p3 : Nat) (bs : List Nat),
      _read_int data pos = .ok (L, p1) → readBytes data p1 (4 * N) = .ok (bs, p2) →
      _read_int data p2 = .ok (T, p3) → T ≠ L →
      Dcd._read_body_section data pos N = .error .corruptRecordError) ∧
    (∀ (l payload t rest : List Nat) (L : Nat),
      payload.length = L → L < 4294967296 → t.length = 4 →
      (∀ b ∈ t, b < 256) → t ≠ enc32 L →
      Dcd._skip_record (l ++ (enc32 L ++ (payload ++ (t ++ rest)))) l.length =
        .error .corruptRecordError) ∧
    (∀ (data : List Nat) (pos F p1 v1 p2 v2 p3 v3 p4 v4 p5 v5 p6 v6 p7 T p8 : Nat),
      _read_int data pos = .ok (F, p1) →
      _read_double data p1 = .ok (v1, p2) →
      _read_double data p2 = .ok (v2, p3) →
      _read_double data p3 = .ok (v3, p4) →
      _read_double data p4 = .ok (v4, p5) →
      _read_double data p5 = .ok (v5, p6) →
      _read_double data p6 = .ok (v6, p7) →
      _read_int data p7 = .ok (T, p8) → T ≠ F →
      Dcd._read_frame_header data pos = .error .corruptRecordError) ∧
    (∀ (data : List Nat) (pos a3 a4 a5 a6 a8 a9 cv T : Nat),
      _read_int data pos = .ok (84, pos + 4) →
      readBytes data (pos + 4) 4 = .ok (magicCORD, pos + 8) →
      _read_int data (pos + 8) = .ok (a3, pos + 12) →
      _read_int data (pos + 12) = .ok (a4, pos + 16) →
      _read_int data (pos + 16) = .ok (a5, pos + 20) →
      _read_int data (pos + 20) = .ok (a6, pos + 24) →
      _skip_ints data 5 (pos + 24) = .ok (pos + 44) →
      _read_int data (pos + 44) = .ok (a8, pos + 48) →
      _read_int data (pos + 48) = .ok (a9, pos + 52) →
      _zero_ints data 8 (pos + 52) = .ok (pos + 84) →
      _read_int data (pos + 84) = .ok (cv, pos + 88) →
      _read_int data (pos + 88) = .ok (T, pos + 92) → T ≠ 84 →
      Dcd._read_file_header data pos = .error .corruptRecordError ∧
      Dcd._scan data pos = .error .corruptRecordError) ∧
    (∀ (data : List Nat) (pos a3 a4 a5 a6 a8 a9 cv tss nt T q : Nat),
      _read_int data pos = .ok (84, pos + 4) →
      readBytes data (pos + 4) 4 = .ok (magicCORD, pos + 8) →
      _read_int data (pos + 8) = .ok (a3, pos + 12) →
      _read_int data (pos + 12) = .ok (a4, pos + 16) →
      _read_int data (pos + 16) = .ok (a5, pos + 20) →
      _read_int data (pos + 20) = .ok (a6, pos + 24) →
      _skip_ints data 5 (pos + 24) = .ok (pos + 44) →
      _read_int data (pos + 44) = .ok (a8, pos + 48) →
      _read_int data (pos + 48) = .ok (a9, pos + 52) →
      _zero_ints data 8 (pos + 52) = .ok (pos + 84) →
      _read_int data (pos + 84) = .ok (cv, pos + 88) →
      _read_int data (pos + 88) = .ok (84, pos + 92) →
      _read_int data (pos + 92) = .ok (tss, pos + 96) →
      _read_int data (pos + 96) = .ok (nt, pos + 100) →
      _read_int data
          (_seek_n (Int.tdiv ((tss : Int) - 4) 2) nt (pos + 100)) =
        .ok (T, q) →
      T ≠ tss →
      Dcd._read_file_header data pos = .error .corruptRecordError ∧
      Dcd._scan data pos = .error .corruptRecordError) ∧
    (∀ (data : List Nat) (pos a3 a4 a5 a6 a8 a9 cv tss nt a10 T q q2 : Nat),
      _read_int data pos = .ok (84, pos + 4) →
      readBytes data (pos + 4) 4 = .ok (magicCORD, pos + 8) →
      _read_int data (pos + 8) = .ok (a3, pos + 12) →
      _read_int data (pos + 12) = .ok (a4, pos + 16) →
      _read_int data (pos + 16) = .ok (a5, pos + 20) →
      _read_int data (pos + 20) = .ok (a6, pos + 24) →
      _skip_ints data 5 (pos + 24) = .ok (pos + 44) →
      _read_int data (pos + 44) = .ok (a8, pos + 48) →
      _read_int data (pos + 48) = .ok (a9, pos + 52) →
      _zero_ints data 8 (pos + 52) = .ok (pos + 84) →
      _read_int data (pos + 84) = .ok (cv, pos + 88) →
      _read_int data (pos + 88) = .ok (84, pos + 92) →
      _read_int data (pos + 92) = .ok (tss, pos + 96) →
      _read_int data (pos + 96) = .ok (nt, pos + 100) →
      _read_int data
          (_seek_n (Int.tdiv ((tss : Int) - 4) 2) nt (pos + 100)) =
        .ok (tss, q) →
      _read_int data q = .ok (4, q + 4) →
      _read_int data (q + 4) = .ok (a10, q + 8) →
      _read_int data (q + 8) = .ok (T, q2) → T ≠ 4 →
      Dcd._read_file_header data pos = .error .corruptRecordError ∧
      Dcd._scan data pos = .error .corruptRecordError) := by
  refine ⟨?_, ?_, ?_, ?_, ?_, ?_, ?_⟩
  · intro data pos L p1 T p2 h1 h2 hT
    rw [Dcd._skip_record, h1, bind_ok_law]
    show _read_int data (p1 + L) >>= _ = _
    rw [h2, bind_ok_law]
    show (if T = L then Except.ok p2 else Except.error DCDError.corruptRecordError) = _
    rw [if_neg hT]
  · intro data pos N L p1 p2 T p3 bs h1 hb h2 hT
    rw [Dcd._read_body_section, h1, bind_ok_law]
    show readBytes data p1 (4 * N) >>= _ = _
    rw [hb, bind_ok_law]
    show _read_int data p2 >>= _ = _
    rw [h2, bind_ok_law]
    show (if T = L then Except.ok (bs, p3)
      else Except.error DCDError.corruptRecordError) = _
    rw [if_neg hT]
  · intro l payload t rest L hpl hL ht4 htb ht
    have h0 : (l ++ (enc32 L ++ (payload ++ (t ++ rest)))).drop l.length =
        enc32 L ++ (payload ++ (t ++ rest)) := List.drop_left l _
    have r1 := read_int_enc h0 hL
    have d1 := drop_step h0 (enc32_length L)
    have d2 := drop_step d1 hpl
    have rT := read_int_of_drop d2 ht4
    have hne : leVal t ≠ L := by
      intro hEq
      exact ht (by rw [← hEq, enc32_leVal t ht4 htb])
    rw [Dcd._skip_record, r1, bind_ok_law]
    show _read_int (l ++ (enc32 L ++ (payload ++ (t ++ rest)))) (l.length + 4 + L) >>= _ = _
    rw [rT, bind_ok_law]
    show (if leVal t = L then Except.ok (l.length + 4 + L + 4)
      else Except.error DCDError.corruptRecordError) = _
    rw [if_neg hne]
  · intro data pos F p1 v1 p2 v2 p3 v3 p4 v4 p5 v5 p6 v6 p7 T p8
      h0 h1 h2 h3 h4 h5 h6 hT hTn
    rw [Dcd._read_frame_header, h0, bind_ok_law]
    show _read_double data p1 >>= _ = _
    rw [h1, bind_ok_law]
    show _read_double data p2 >>= _ = _
    rw [h2, bind_ok_law]
    show _read_double data p3 >>= _ = _
    rw [h3, bind_ok_law]
    show _read_double data p4 >>= _ = _
    rw [h4, bind_ok_law]
    show _read_double data p5 >>= _ = _
    rw [h5, bind_ok_law]
    show _read_double data p6 >>= _ = _
    rw [h6, bind_ok_law]
    show _read_int data p7 >>= _ = _
    rw [hT, bind_ok_law]
    show (if T = F then _ else Except.error DCDError.corruptRecordError) = _
    rw [if_neg hTn]
  · intro data pos a3 a4 a5 a6 a8 a9 cv T
      h1 h2 h3 h4 h5 h6 h7 h8 h9 h10 h11 h12 hTn
    have hhdr : Dcd._read_file_header data pos = .error .corruptRecordError := by
      rw [Dcd._read_file_header, h1, bind_ok_law]
      show (if (84 : Nat) = 84 then _ else Except.error DCDError.formatError) = _
      rw [if_pos rfl]
      show readBytes data (pos + 4) 4 >>= _ = _
      rw [h2, bind_ok_law]
      show (if magicCORD = magicCORD then _ else Except.error DCDError.formatError) = _
      rw [if_pos rfl]
      show _read_int data (pos + 8) >>= _ = _
      rw [h3, bind_ok_law]
      show _read_int data (pos + 12) >>= _ = _
      rw [h4, bind_ok_law]
      show _read_int data (pos + 16) >>= _ = _
      rw [h5, bind_ok_law]
      show _read_int data (pos + 20) >>= _ = _
      rw [h6, bind_ok_law]
      show _skip_ints data 5 (pos + 24) >>= _ = _
      rw [h7, bind_ok_law]
      show _read_int data (pos + 44) >>= _ = _
      rw [h8, bind_ok_law]
      show _read_int data (pos + 48) >>= _ = _
      rw [h9, bind_ok_law]
      show _zero_ints data 8 (pos + 52) >>= _ = _
      rw [h10, bind_ok_law]
      show _read_int data (pos + 84) >>= _ = _
      rw [h11, bind_ok_law]
      show _read_int data (pos + 88) >>= _ = _
      rw [h12, bind_ok_law]
      show (if T = 84 then _ else Except.error DCDError.corruptRecordError) = _
      rw [if_neg hTn]
    exact ⟨hhdr, by rw [Dcd._scan, hhdr, bind_error_law]⟩
  · intro data pos a3 a4 a5 a6 a8 a9 cv tss nt T q
      h1 h2 h3 h4 h5 h6 h7 h8 h9 h10 h11 h12 h13 h14 hT hTn
    have hhdr : Dcd._read_file_header data pos = .error .corruptRecordError := by
      rw [Dcd._read_file_header, h1, bind_ok_law]
      show (if (84 : Nat) = 84 then _ else Except.error DCDError.formatError) = _
      rw [if_pos rfl]
      show readBytes data (pos + 4) 4 >>= _ = _
      rw [h2, bind_ok_law]
      show (if magicCORD = magicCORD then _ else Except.error DCDError.formatError) = _
      rw [if_pos rfl]
      show _read_int data (pos + 8) >>= _ = _
      rw [h3, bind_ok_law]
      show _read_int data (pos + 12) >>= _ = _
      rw [h4, bind_ok_law]
      show _read_int data (pos + 16) >>= _ = _
      rw [h5, bind_ok_law]
      show _read_int data (pos + 20) >>= _ = _
      rw [h6, bind_ok_law]
      show _skip_ints data 5 (pos + 24) >>= _ = _
      rw [h7, bind_ok_law]
      show _read_int data (pos + 44) >>= _ = _
      rw [h8, bind_ok_law]
      show _read_int data (pos + 48) >>= _ = _
      rw [h9, bind_ok_law]
      show _zero_ints data 8 (pos + 52) >>= _ = _
      rw [h10, bind_ok_law]
      show _read_int data (pos + 84) >>= _ = _
      rw [h11, bind_ok_law]
      show _read_int data (pos + 88) >>= _ = _
      rw [h12, bind_ok_law]
      show (if (84 : Nat) = 84 then _ else Except.error DCDError.corruptRecordError) = _
      rw [if_pos rfl]
      show _read_int data (pos + 92) >>= _ = _
      rw [h13, bind_ok_law]
      show _read_int data (pos + 96) >>= _ = _
      rw [h14, bind_ok_law]
      show _read_int data
          (_seek_n (Int.tdiv ((tss : Int) - 4) 2) nt (pos + 100)) >>= _ = _
      rw [hT, bind_ok_law]
      show (if T = tss then _ else Except.error DCDError.corruptRecordError) = _
      rw [if_neg hTn]
    exact ⟨hhdr, by rw [Dcd._scan, hhdr, bind_error_law]⟩
  · intro data pos a3 a4 a5 a6 a8 a9 cv tss nt a10 T q q2
      h1 h2 h3 h4 h5 h6 h7 h8 h9 h10 h11 h12 h13 h14 hT hM hNp hM2 hTn
    have hhdr : Dcd._read_file_header data pos = .error .corruptRecordError := by
      rw [Dcd._read_file_header, h1, bind_ok_law]
      show (if (84 : Nat) = 84 then _ else Except.error DCDError.formatError) = _
      rw [if_pos rfl]
      show readBytes data (pos + 4) 4 >>= _ = _
      rw [h2, bind_ok_law]
      show (if magicCORD = magicCORD then _ else Except.error DCDError.formatError) = _
      rw [if_pos rfl]
      show _read_int data (pos + 8) >>= _ = _
      rw [h3, bind_ok_law]
      show _read_int data (pos + 12) >>= _ = _
      rw [h4, bind_ok_law]
      show _read_int data (pos + 16) >>= _ = _
      rw [h5, bind_ok_law]
      show _read_int data (pos + 20) >>= _ = _
      rw [h6, bind_ok_law]
      show _skip_ints data 5 (pos + 24) >>= _ = _
      rw [h7, bind_ok_law]
      show _read_int data (pos + 44) >>= _ = _
      rw [h8, bind_ok_law]
      show _read_int data (pos + 48) >>= _ = _
      rw [h9, bind_ok_law]
      show _zero_ints data 8 (pos + 52) >>= _ = _
      rw [h10, bind_ok_law]
      show _read_int data (pos + 84) >>= _ = _
      rw [h11, bind_ok_law]
      show _read_int data (pos + 88) >>= _ = _
      rw [h12, bind_ok_law]
      show (if (84 : Nat) = 84 then _ else Except.error DCDError.corruptRecordError) = _
      rw [if_pos rfl]
      show _read_int data (pos + 92) >>= _ = _
      rw [h13, bind_ok_law]
      show _read_int data (pos + 96) >>= _ = _
      rw [h14, bind_ok_law]
      show _read_int data
          (_seek_n (Int.tdiv ((tss : Int) - 4) 2) nt (pos + 100)) >>= _ = _
      rw [hT, bind_ok_law]
      show (if tss = tss then _ else Except.error DCDError.corruptRecordError) = _
      rw [if_pos rfl]
      show _read_int data q >>= _ = _
      rw [hM, bind_ok_law]
      show (if (4 : Nat) = 4 then _ else Except.error DCDError.formatError) = _
      rw [if_pos rfl]
      show _read_int data (q + 4) >>= _ = _
      rw [hNp, bind_ok_law]
      show _read_int data (q + 8) >>= _ = _
      rw [hM2, bind_ok_law]
      show (if T = 4 then _ else Except.error DCDError.corruptRecordError) = _
      rw [if_neg hTn]
    exact ⟨hhdr, by rw [Dcd._scan, hhdr, bind_error_law]⟩

/-- A frame-header record with trailing field 49 against prefix 48. -/
def c2FrameHdrCex : List Nat := enc32 48 ++ (List.replicate 48 0 ++ enc32 49)

/-- A leading header record with trailing field 85 against its 84-byte
prefix. -/
def c2LeadTrailCex : List Nat :=
  encHeaderRecord 84 magicCORD 1 0 0 0 [0, 0, 0, 0, 0] 0 1
      (List.replicate 8 0) 24 85 ++ []

/-- A header whose marker record carries trailing field 5 against its
4-byte prefix. -/
def c2MarkerTrailCex : List Nat :=
  encHeaderRecord 84 magicCORD 1 0 0 0 [0, 0, 0, 0, 0] 0 1
      (List.replicate 8 0) 24 84 ++
    (encTitle 4 2 [] ++ (enc32 4 ++ (enc32 7 ++ (enc32 5 ++ []))))

/-- C2 witness: all seven conjuncts at concrete inputs — a skip with
trailing 9 against prefix 2; a coordinate block with trailing 7 against
prefix 4; a record `[2,0,0,0] ++ [10,20] ++ [3,0,0,0]` whose trailing
field differs from `enc32 2` in its first byte; a frame-header record with
trailing 49 against 48; a leading record with trailing 85; the one-title
stream whose mis-skipped title trailing check reads 1543 against 6; and a
marker record with trailing 5 against 4. -/
theorem c2_witness :
    Dcd._skip_record [2, 0, 0, 0, 5, 6, 9, 0, 0, 0] 0 =
      .error .corruptRecordError ∧
    Dcd._read_body_section [4, 0, 0, 0, 1, 2, 3, 4, 7, 0, 0, 0] 0 1 =
      .error .corruptRecordError ∧
    Dcd._skip_record ([] ++ (enc32 2 ++ ([10, 20] ++ ([3, 0, 0, 0] ++ []))))
      (List.length ([] : List Nat)) = .error .corruptRecordError ∧
    Dcd._read_frame_header c2FrameHdrCex 0 = .error .corruptRecordError ∧
    Dcd._read_file_header c2LeadTrailCex 0 = .error .corruptRecordError ∧
    Dcd._read_file_header c1CexStream 0 = .error .corruptRecordError ∧
    Dcd._read_file_header c2MarkerTrailCex 0 = .error .corruptRecordError := by
  refine ⟨?_, ?_, ?_, ?_, ?_, ?_, ?_⟩
  · exact c2_trailing_mismatch_fails.1 _ 0 2 4 9 10 (by rfl) (by rfl) (by decide)
  · exact c2_trailing_mismatch_fails.2.1 _ 0 1 4 4 8 7 12 [1, 2, 3, 4]
      (by rfl) (by rfl) (by rfl) (by decide)
  · exact c2_trailing_mismatch_fails.2.2.1 [] [10, 20] [3, 0, 0, 0] [] 2
      (by rfl) (by decide) (by rfl) (by decide) (by decide)
  · exact c2_trailing_mismatch_fails.2.2.2.1 c2FrameHdrCex 0 48 4 0 12 0 20 0 28
      0 36 0 44 0 52 49 56
      (by rfl) (by rfl) (by rfl) (by rfl) (by rfl) (by rfl) (by rfl) (by rfl)
      (by decide)
  · exact (c2_trailing_mismatch_fails.2.2.2.2.1 c2LeadTrailCex 0 1 0 0 0 0 1 24 85
      (by rfl) (by rfl) (by rfl) (by rfl) (by rfl) (by rfl) (by rfl) (by rfl)
      (by rfl) (by rfl) (by rfl) (by rfl) (by decide)).1
  · exact (c2_trailing_mismatch_fails.2.2.2.2.2.1 c1CexStream 0 1 0 0 0 0 1 24 6 1
      1543 105
      (by rfl) (by rfl) (by rfl) (by rfl) (by rfl) (by rfl) (by rfl) (by rfl)
      (by rfl) (by rfl) (by rfl) (by rfl) (by rfl) (by rfl) (by rfl)
      (by decide)).1
  · exact (c2_trailing_mismatch_fails.2.2.2.2.2.2 c2MarkerTrailCex 0 1 0 0 0 0 1 24
      4 2 7 5 104 116
      (by rfl) (by rfl) (by rfl) (by rfl) (by rfl) (by rfl) (by rfl) (by rfl)
      (by rfl) (by rfl) (by rfl) (by rfl) (by rfl) (by rfl) (by rfl) (by rfl)
      (by rfl) (by rfl) (by decide)).1

/-- C3 (amended): a successful coordinate-block read consumes exactly
`4 * N` payload bytes and validates only that the following 4-byte field
equals the declared length prefix; the declared length is never compared
with `4 * num_particles` (and the reader has no `InconsistentParticleCount`
failure at all), so a block whose declared length differs from `4 * N` is
not rejected as such. -/
theorem c3_block_length_unchecked
    (data : List Nat) (pos N : Nat) (row : List Nat) (p' : Nat)
    (hok : Dcd._read_body_section data pos N = .ok (row, p')) :
    row.length = 4 * N ∧ p' = pos + 4 + 4 * N + 4 ∧
    _read_int data pos = .ok (leVal ((data.drop pos).take 4), pos + 4) ∧
    _read_int data (pos + 4 + 4 * N) =
      .ok (leVal ((data.drop pos).take 4), pos + 4 + 4 * N + 4) := by
  rw [Dcd._read_body_section] at hok
  obtain ⟨⟨L, p1⟩, h1, hok⟩ := except_bind_ok_inv hok
  obtain ⟨hv1, _, hp1⟩ := read_int_ok_inv h1
  subst hp1
  simp only at hok
  obtain ⟨⟨bs, p2⟩, h2, hok⟩ := except_bind_ok_inv hok
  obtain ⟨_, hlen, hp2⟩ := readBytes_ok_inv h2
  subst hp2
  simp only at hok
  obtain ⟨⟨T, p3⟩, h3, hok⟩ := except_bind_ok_inv hok
  obtain ⟨_, _, hp3⟩ := read_int_ok_inv h3
  subst hp3
  simp only at hok
  split at hok
  · rename_i hTL
    cases hok
    subst hTL
    subst hv1
    exact ⟨hlen, rfl, h1, h3⟩
  · cases hok

/-- A three-block frame body whose blocks all declare byte length 8 while
the decoder is asked for `N = 1` particle (4 bytes per block): each block's
bytes 8–11 happen to equal the prefix, so every trailing check passes. -/
def c3CexBody : List Nat :=
  [8, 0, 0, 0, 1, 2, 3, 4, 8, 0, 0, 0,
   8, 0, 0, 0, 1, 2, 3, 4, 8, 0, 0, 0,
   8, 0, 0, 0, 1, 2, 3, 4, 8, 0, 0, 0]

/-- C3 counterexample: the frame body declares block length `8 ≠ 4 * 1`,
yet decoding with `num_particles = 1` succeeds — no failure at all, let
alone `InconsistentParticleCount`. -/
theorem c3_counterexample :
    Dcd._read_frame_body c3CexBody 0 1 =
      .ok (([1, 2, 3, 4], [1, 2, 3, 4], [1, 2, 3, 4]), 36) ∧
    _read_int c3CexBody 0 = .ok (8, 4) ∧ 8 ≠ 4 * 1 :=
  ⟨by rfl, by rfl, by decide⟩

/-- C3 witness: the amended theorem at a concrete well-formed block. -/
theorem c3_witness :
    ([9, 9, 9, 9] : List Nat).length = 4 * 1 ∧
    (12 : Nat) = 0 + 4 + 4 * 1 + 4 ∧
    _read_int [4, 0, 0, 0, 9, 9, 9, 9, 4, 0, 0, 0] 0 =
      .ok (leVal (List.take 4 (List.drop 0 [4, 0, 0, 0, 9, 9, 9, 9, 4, 0, 0, 0])),
        0 + 4) ∧
    _read_int [4, 0, 0, 0, 9, 9, 9, 9, 4, 0, 0, 0] (0 + 4 + 4 * 1) =
      .ok (leVal (List.take 4 (List.drop 0 [4, 0, 0, 0, 9, 9, 9, 9, 4, 0, 0, 0])),
        0 + 4 + 4 * 1 + 4) :=
  c3_block_length_unchecked [4, 0, 0, 0, 9, 9, 9, 9, 4, 0, 0, 0] 0 1
    [9, 9, 9, 9] 12 (by rfl)

/-- C6: decoding is stateless under both revisions.  Conjunct 1: the
optimized `read_frame` (part_004) with a nonnegative `offset` seeks
absolutely, so its result (frame header bit patterns, coordinate rows,
final position) is independent of the stream cursor; two calls with the
same offset and particle count are bit-identical.  Conjunct 2: the
portable `read_frame` (dcdreader.pyx) with a given `offset` likewise —
same result value and same final caller array from any two cursor
positions. -/
theorem c6_decode_idempotent_stateless :
    (∀ (data : List Nat) (off : Int) (N p1 p2 : Nat), 0 ≤ off →
      Dcd.read_frame data p1 off N = Dcd.read_frame data p2 off N) ∧
    (∀ (data : List Nat) (o : Nat) (xyz : List (List Nat)) (p1 p2 : Nat),
      DcdP.read_frame data p1 (some o) xyz = DcdP.read_frame data p2 (some o) xyz) := by
  constructor
  · intro data off N p1 p2 hoff
    rw [Dcd.read_frame, Dcd.read_frame]
    simp only [if_pos hoff]
  · intro data o xyz p1 p2
    rfl

/-- C6 witness: the same frame decoded from cursor positions 3 and 99, by
both readers. -/
theorem c6_witness :
    (Dcd.read_frame (encFrame (List.replicate 48 0) [1, 2, 3, 4] [5, 6, 7, 8]
        [9, 10, 11, 12]) 3 0 1 =
      Dcd.read_frame (encFrame (List.replicate 48 0) [1, 2, 3, 4] [5, 6, 7, 8]
        [9, 10, 11, 12]) 99 0 1) ∧
    (DcdP.read_frame (encFrame (List.replicate 48 0) [1, 2, 3, 4] [5, 6, 7, 8]
        [9, 10, 11, 12]) 3 (some 0) [[0, 0, 0]] =
      DcdP.read_frame (encFrame (List.replicate 48 0) [1, 2, 3, 4] [5, 6, 7, 8]
        [9, 10, 11, 12]) 99 (some 0) [[0, 0, 0]]) :=
  ⟨c6_decode_idempotent_stateless.1 _ 0 1 3 99 (by decide),
   c6_decode_idempotent_stateless.2 _ 0 [[0, 0, 0]] 3 99⟩

/-- The scan loop yields exactly as many offsets as it was asked for. -/
theorem scan_loop_length {data : List Nat} :
    ∀ {n pos : Nat} {offs : List Nat},
      Dcd._scan_loop data n pos = .ok offs → offs.length = n := by
  intro n
  induction n with
  | zero =>
    intro pos offs h
    cases h
    rfl
  | succ n ih =>
    intro pos offs h
    rw [Dcd._scan_loop] at h
    obtain ⟨⟨fh, q⟩, h1, h⟩ := except_bind_ok_inv h
    simp only at h
    obtain ⟨q1, h2, h⟩ := except_bind_ok_inv h
    obtain ⟨rest, h3, h⟩ := except_bind_ok_inv h
    cases h
    rw [List.length_cons, ih h3]

/-- C7 (amended): `_scan` never returns a partial index — a successful
scan carries exactly `num_frames` offsets, and a failing scan returns no
index at all (`Except` carries no value on error).  The in-place frame
decoder, however, CAN leave partially written data in the caller's buffer
on failure; that is the separate counterexample `c7_counterexample`. -/
theorem c7_no_partial_index
    (data : List Nat) (pos : Nat) (hdr : DCDFileHeader) (offs : List Nat)
    (hok : Dcd._scan data pos = .ok (hdr, offs)) :
    offs.length = hdr.num_frames := by
  rw [Dcd._scan] at hok
  obtain ⟨⟨fh, p⟩, h1, hok⟩ := except_bind_ok_inv hok
  simp only at hok
  obtain ⟨offs0, h2, hok⟩ := except_bind_ok_inv hok
  cases hok
  exact scan_loop_length h2

/-- One coordinate section: length prefix 4, one float, then a corrupt
trailing field. -/
def c7CexData : List Nat := [4, 0, 0, 0, 1, 0, 0, 0, 9, 9, 9, 9]

/-- C7 counterexample: the portable `_read_frame_body` writes
`xyz[0][0]` before the first trailing-length check fails, so the failing
decode returns an error AND leaves the caller's buffer partially filled —
the written value is visible to the caller who owns `xyz`. -/
theorem c7_counterexample :
    (DcdP._read_frame_body c7CexData 0 [[0, 0, 0]]).2 =
      .error .corruptRecordError ∧
    (DcdP._read_frame_body c7CexData 0 [[0, 0, 0]]).1 ≠ [[0, 0, 0]] :=
  ⟨by rfl, by decide⟩

/-- C7 witness: a concrete successful scan returns exactly `num_frames`
offsets. -/
theorem c7_witness :
    ([116, 208] : List Nat).length =
      (⟨2, 1, 2, 3, 5, 1, 24, 1⟩ : DCDFileHeader).num_frames :=
  c7_no_partial_index
    (encodeDCD 2 1 2 3 [9, 9, 9, 9, 9] 5 1 24 0 [] 1 c1WitnessFrames) 0
    ⟨2, 1, 2, 3, 5, 1, 24, 1⟩ [116, 208] (by rfl)

/-- The frame-indexing loops of the two revisions agree (the surrounding
non-recursive definitions are definitionally equal; the recursive loops
need an induction). -/
theorem scan_loop_impls_eq {data : List Nat} :
    ∀ (n pos : Nat), Dcd._scan_loop data n pos = DcdP._scan_loop data n pos := by
  intro n
  induction n with
  | zero => intro pos; rfl
  | succ n ih =>
    intro pos
    have ih' : Dcd._scan_loop data n = DcdP._scan_loop data n := funext ih
    rw [Dcd._scan_loop, DcdP._scan_loop, ih']
    rfl

/-- C10: the two `_scan` implementations — `dcdreader.pyx` (portable
float-by-float frame body) and its optimized revision (`part_004`) — are
textually identical on the whole scan chain, hence extensionally equal:
same header, same offsets, same failures, on every stream. -/
theorem c10_scan_implementations_equal :
    ∀ (data : List Nat) (pos : Nat), Dcd._scan data pos = DcdP._scan data pos := by
  intro data pos
  rw [Dcd._scan, DcdP._scan,
    show Dcd._scan_loop data = DcdP._scan_loop data from
      funext fun n => funext fun q => scan_loop_impls_eq n q]
  rfl

/-- The two stored-scalar conventions for the simulation box (spec §4.1,
§9): a cosine-of-angle convention and a direct tilt-factor convention,
selected by the header's variant marker. -/
inductive BoxVariant where
  | cosine
  | tiltFactor
deriving DecidableEq, Repr

/-- Modelled from the spec: `BoxGeometry.compute_matrix` (§4.1) — the box
geometry code of the repository is not under `src/`.  The matrix columns
are the three box vectors.  In the cosine convention the stored tilts
`t1, t2, t3` are the cosines of the angles gamma, beta, alpha, and the
stored tilt cosine is carried through the trigonometric inversion with its
sign intact (the corrected behavior the spec mandates against the
historical negative-angle sign defect); in the tilt-factor convention the
off-diagonal entries are the tilt factors scaled by edge lengths.  Real
trigonometry makes this noncomputable, as the original is floating-point. -/
noncomputable def compute_matrix (Lx Ly Lz t1 t2 t3 : ℝ) :
    BoxVariant → Matrix (Fin 3) (Fin 3) ℝ
  | .cosine =>
    !![Lx, Ly * t1, Lz * t2;
       0, Ly * Real.sqrt (1 - t1 ^ 2),
         Lz * ((t3 - t2 * t1) / Real.sqrt (1 - t1 ^ 2));
       0, 0,
         Lz * Real.sqrt (1 - t2 ^ 2 -
           ((t3 - t2 * t1) / Real.sqrt (1 - t1 ^ 2)) ^ 2)]
  | .tiltFactor =>
    !![Lx, Ly * t1, Lz * t2;
       0, Ly, Lz * t3;
       0, 0, Lz]

/-- C9: for a skewed box with a negative stored tilt value, the
reconstruction preserves the sign of the stored tilt through the
inversion: the corresponding off-diagonal entry (row 0, column 1, the
`xy` tilt against edge length `Ly > 0`) is negative exactly like the
stored input, under either convention. -/
theorem c9_tilt_sign_preserved (Lx Ly Lz t1 t2 t3 : ℝ) (v : BoxVariant)
    (hLy : 0 < Ly) (ht : t1 < 0) :
    compute_matrix Lx Ly Lz t1 t2 t3 v 0 1 < 0 := by
  have hentry : compute_matrix Lx Ly Lz t1 t2 t3 v 0 1 = Ly * t1 := by
    cases v <;>
      simp [compute_matrix, Matrix.cons_val_zero, Matrix.cons_val_one,
        Matrix.head_cons]
  rw [hentry]
  exact mul_neg_of_pos_of_neg hLy ht

/-- C9 witness: a concrete skewed box with stored tilt cosine `-1/2`. -/
theorem c9_witness :
    compute_matrix 1 2 3 (-(1 / 2)) 0 0 BoxVariant.cosine 0 1 < 0 :=
  c9_tilt_sign_preserved 1 2 3 (-(1 / 2)) 0 0 BoxVariant.cosine
    (by norm_num) (by norm_num)
